import Mathlib

/-!
Shallow embedding of the `async::WavPlayer` multi-track PCM mixer
(`src/include/async/WavPlayer.h`) and proofs about its specification.

Modelling conventions:
* `uint32_t` fields are `Nat` kept below `2 ^ 32`; where the C++ code can wrap
  (`position += bytesRead`, `dataSize - position`) the wrap is written
  explicitly with `% U32` / `u32sub`.
* `float` volumes and the float mixing arithmetic are modelled over `ℚ` with
  truncation toward zero at the `int16_t` store; no claim depends on the exact
  numeric value of a mixed sample.
* The external `Stream` collaborator (sequential, seekable byte source per the
  design contract: `read` returns at most the requested count, 0 at
  end-of-data; `seek`; `position`) is modelled as a concrete byte list plus a
  cursor.  The engine stores the stream by value; the C++ code holds a pointer
  to the caller-owned object.
* `i2s_driver_install`, `i2s_set_pin` and the decode-buffer `malloc` calls in
  `start()` are modelled as succeeding; freshly allocated buffer contents are
  modelled as zeros (the code never reads them before overwriting, except as
  stale samples whose values no claim depends on).
* `i2s_write` is modelled by appending the transmitted buffer to a `sink`
  trace; the registered event callback is modelled by a flag `hasCallback`
  plus an `events` trace of the invocations `(trackNum, event)`.
-/

namespace AsyncWav

/-- Events delivered through the registered `WavPlayerCallback`. -/
inductive WavPlayerEvent
  | TRACK_STARTED
  | TRACK_STOPPED
  | TRACK_PAUSED
  | TRACK_RESUMED
  deriving DecidableEq, Repr

/-- The external byte source (`async::Stream`): a byte list plus a cursor. -/
structure ByteStream where
  data : List Nat
  pos : Nat
  deriving DecidableEq, Repr

/-- Stream read: returns up to `n` next bytes and advances the cursor by the
number of bytes actually delivered (0 bytes signals end-of-data). -/
def ByteStream.read (s : ByteStream) (n : Nat) : List Nat × ByteStream :=
  let chunk := (s.data.drop s.pos).take n
  (chunk, { s with pos := s.pos + chunk.length })

/-- Stream seek: repositions the cursor. -/
def ByteStream.seek (s : ByteStream) (n : Nat) : ByteStream :=
  { s with pos := n }

/-- Stream position query. -/
def ByteStream.position (s : ByteStream) : Nat :=
  s.pos

/-- One playback slot (`WavPlayer::AudioTrack`).  `buffer` holds the raw bytes
of the decode buffer (`mixBufferSize` 16-bit samples = `2 * mixBufferSize`
bytes); `bufferPos` indexes samples. -/
structure AudioTrack where
  stream : Option ByteStream
  isPlaying : Bool
  isPaused : Bool
  dataSize : Nat
  position : Nat
  volume : ℚ
  buffer : List Nat
  bufferPos : Nat
  parseWavHeader : Bool
  deriving DecidableEq, Repr

/-- MAX_TRACKS = 4. -/
def MAX_TRACKS : Nat := 4

/-- mixBufferSize = 512 samples. -/
def mixBufferSize : Nat := 512

/-- Modulus of `uint32_t` arithmetic. -/
def U32 : Nat := 2 ^ 32

/-- Wrapping `uint32_t` subtraction `a - b` (for `a, b < U32`). -/
def u32sub (a b : Nat) : Nat :=
  (U32 + a - b) % U32

/-- Track initializer used by the constructor. -/
def defaultTrack : AudioTrack where
  stream := none
  isPlaying := false
  isPaused := false
  dataSize := 0
  position := 0
  volume := 1
  buffer := []
  bufferPos := 0
  parseWavHeader := false

/-- Engine state (`class WavPlayer`), with traces for the observable external
effects: `events` records callback invocations, `sink` records the buffers
handed to `i2s_write`. -/
structure WavPlayer where
  tracks : List AudioTrack
  initialized : Bool
  mixBuffer : List Int
  hasCallback : Bool
  events : List (Int × WavPlayerEvent)
  sink : List (List Int)
  deriving DecidableEq, Repr

/-- The freshly constructed engine. -/
def mkWavPlayer : WavPlayer where
  tracks := List.replicate MAX_TRACKS defaultTrack
  initialized := false
  mixBuffer := List.replicate mixBufferSize 0
  hasCallback := false
  events := []
  sink := []

/-- Invoke the registered callback, if any (appends to the event trace). -/
def WavPlayer.emit (p : WavPlayer) (t : Int) (e : WavPlayerEvent) : WavPlayer :=
  if p.hasCallback then { p with events := p.events ++ [(t, e)] } else p

/-- isValidTrack: in-range index on a started engine. -/
def WavPlayer.isValidTrack (p : WavPlayer) (t : Int) : Bool :=
  decide (0 ≤ t) && decide (t < (MAX_TRACKS : Int)) && p.initialized

/-- Read the slot addressed by a track number. -/
def WavPlayer.getTrack (p : WavPlayer) (t : Int) : AudioTrack :=
  p.tracks.getD t.toNat defaultTrack

/-- Replace the slot addressed by a track number. -/
def WavPlayer.setTrack (p : WavPlayer) (n : Nat) (tr : AudioTrack) : WavPlayer :=
  { p with tracks := p.tracks.set n tr }

/-- WavPlayer::start: idempotent; driver install and the per-track decode
buffer allocations are modelled as succeeding (buffer = `2 * mixBufferSize`
bytes, contents modelled as zeros). -/
def WavPlayer.start (p : WavPlayer) : WavPlayer × Bool :=
  if p.initialized then (p, true)
  else
    ({ p with
        tracks := p.tracks.map fun tr =>
          { tr with buffer := List.replicate (mixBufferSize * 2) 0 }
        initialized := true }, true)

/-- WavPlayer::stop: clears both flags and emits TRACK_STOPPED on every valid
track (the emission is not guarded by a state change). -/
def WavPlayer.stop (p : WavPlayer) (t : Int) : WavPlayer :=
  if p.isValidTrack t then
    ((p.setTrack t.toNat
        { p.getTrack t with isPlaying := false, isPaused := false }).emit t
      .TRACK_STOPPED)
  else p

/-- WavPlayer::cancel: stops every track, frees the decode buffers, uninstalls
the driver. -/
def WavPlayer.cancel (p : WavPlayer) : WavPlayer × Bool :=
  if !p.initialized then (p, false)
  else
    let p1 := (List.range MAX_TRACKS).foldl
      (fun q i =>
        let q1 := q.stop (i : Int)
        q1.setTrack i { q1.getTrack (i : Int) with buffer := [] })
      p
    ({ p1 with initialized := false }, true)

/-- WavPlayer::pause: guarded only by the paused flag (not by isPlaying). -/
def WavPlayer.pause (p : WavPlayer) (t : Int) : WavPlayer :=
  if !p.isValidTrack t || (p.getTrack t).isPaused then p
  else
    ((p.setTrack t.toNat { p.getTrack t with isPaused := true }).emit t
      .TRACK_PAUSED)

/-- WavPlayer::resume: guarded only by the paused flag. -/
def WavPlayer.resume (p : WavPlayer) (t : Int) : WavPlayer :=
  if !p.isValidTrack t || !(p.getTrack t).isPaused then p
  else
    ((p.setTrack t.toNat { p.getTrack t with isPaused := false }).emit t
      .TRACK_RESUMED)

/-- WavPlayer::isPlaying. -/
def WavPlayer.isPlaying (p : WavPlayer) (t : Int) : Bool :=
  p.isValidTrack t && (p.getTrack t).isPlaying && !(p.getTrack t).isPaused

/-- WavPlayer::isPaused. -/
def WavPlayer.isPaused (p : WavPlayer) (t : Int) : Bool :=
  p.isValidTrack t && (p.getTrack t).isPlaying && (p.getTrack t).isPaused

/-- Arduino constrain(amt, low, high). -/
def ratConstrain (v lo hi : ℚ) : ℚ :=
  if v < lo then lo else if v > hi then hi else v

/-- WavPlayer::setVolume. -/
def WavPlayer.setVolume (p : WavPlayer) (t : Int) (v : ℚ) : WavPlayer :=
  if p.isValidTrack t then
    p.setTrack t.toNat { p.getTrack t with volume := ratConstrain v 0 1 }
  else p

/-- WavPlayer::getVolume. -/
def WavPlayer.getVolume (p : WavPlayer) (t : Int) : ℚ :=
  if p.isValidTrack t then (p.getTrack t).volume else 0

/-- WavPlayer::onEvent: registering (or clearing) the callback is modelled by
the flag. -/
def WavPlayer.onEvent (p : WavPlayer) (b : Bool) : WavPlayer :=
  { p with hasCallback := b }

/-! WAV header parsing (`WavPlayer::skipWavHeader`).  The two chunk-scan
`while (true)` loops are translated with an explicit fuel parameter; every
iteration that does not return requires a successful 8-byte read (advancing
the cursor by 8) followed by a forward seek, so at most
`s.data.length / 8 + 1` iterations can occur before a mandatory return.  With
fuel `s.data.length + 1` the out-of-fuel branch is unreachable and the
translation computes exactly what the unbounded C++ loop computes. -/

/-- ASCII bytes of the tag RIFF. -/
def riffTag : List Nat := [82, 73, 70, 70]

/-- ASCII bytes of the tag WAVE. -/
def waveTag : List Nat := [87, 65, 86, 69]

/-- ASCII bytes of the tag fmt-space. -/
def fmtTag : List Nat := [102, 109, 116, 32]

/-- ASCII bytes of the tag data. -/
def dataTag : List Nat := [100, 97, 116, 97]

/-- Little-endian 32-bit value of the first four bytes of a list
(`*reinterpret_cast<uint32_t*>(chunkHeader + 4)`). -/
def le32 (l : List Nat) : Nat :=
  l.getD 0 0 + 256 * l.getD 1 0 + 65536 * l.getD 2 0 + 16777216 * l.getD 3 0

/-- First chunk-scan loop: skip chunks until a fmt-space chunk is found, then
seek past its payload. -/
def findFmt : Nat → ByteStream → Bool × ByteStream
  | 0, s => (false, s)
  | fuel + 1, s =>
    let r := s.read 8
    let ch := r.1
    let s1 := r.2
    if ch.length ≠ 8 then (false, s1)
    else
      let chunkSize := le32 (ch.drop 4)
      if ch.take 4 = fmtTag then (true, s1.seek (s1.position + chunkSize))
      else findFmt fuel (s1.seek (s1.position + chunkSize))

/-- Second chunk-scan loop: skip chunks until a data chunk is found; on
success the cursor is just past the 8-byte data chunk header. -/
def findData : Nat → ByteStream → Bool × ByteStream
  | 0, s => (false, s)
  | fuel + 1, s =>
    let r := s.read 8
    let ch := r.1
    let s1 := r.2
    if ch.length ≠ 8 then (false, s1)
    else if ch.take 4 = dataTag then (true, s1)
    else findData fuel (s1.seek (s1.position + le32 (ch.drop 4)))

/-- WavPlayer::skipWavHeader. -/
def skipWavHeader (s : ByteStream) : Bool × ByteStream :=
  let r := s.read 12
  let hdr := r.1
  let s1 := r.2
  if hdr.length ≠ 12 then (false, s1)
  else if ¬(hdr.take 4 = riffTag ∧ (hdr.drop 8).take 4 = waveTag) then (false, s1)
  else
    let r1 := findFmt (s.data.length + 1) s1
    if ¬r1.1 then (false, r1.2)
    else findData (s.data.length + 1) r1.2

/-- WavPlayer::play.  The `uint32_t dataSize` argument is reduced mod `U32` at
entry (the C++ parameter type performs this truncation). -/
def WavPlayer.play (p : WavPlayer) (trackNum : Int) (stream : Option ByteStream)
    (parseHdr : Bool) (dataSize : Nat) : WavPlayer × Bool :=
  if trackNum < 0 ∨ (MAX_TRACKS : Int) ≤ trackNum ∨ p.initialized = false ∨
      stream = none then (p, false)
  else
    match stream with
    | none => (p, false)
    | some st =>
      let ds32 := dataSize % U32
      let hr := if parseHdr then skipWavHeader st else (true, st)
      if parseHdr ∧ hr.1 = false then (p, false)
      else
        let headerSize : Nat := if parseHdr then 44 else 0
        let old := p.getTrack trackNum
        let tr : AudioTrack :=
          { stream := some hr.2
            isPlaying := true
            isPaused := false
            dataSize := if headerSize < ds32 then ds32 - headerSize else 0
            position := 0
            volume := old.volume
            buffer := old.buffer
            bufferPos := mixBufferSize
            parseWavHeader := parseHdr }
        ((p.setTrack trackNum.toNat tr).emit trackNum .TRACK_STARTED, true)

/-! The per-tick mixing step (`WavPlayer::mixTrack` and the loop body of
`WavPlayer::tick`). -/

/-- Reinterpret an unsigned 16-bit value as `int16_t`. -/
def toInt16 (n : Nat) : Int :=
  let m := n % 65536
  if m < 32768 then (m : Int) else (m : Int) - 65536

/-- Wrap an integer into `int16_t` range (the implicit conversion at the
`int16_t` store in the mix loop). -/
def i16ofInt (n : Int) : Int :=
  toInt16 (n % 65536).toNat

/-- Truncation toward zero of a rational (float-to-int conversion). -/
def ratTrunc (q : ℚ) : Int :=
  if 0 ≤ q then ⌊q⌋ else ⌈q⌉

/-- The 16-bit sample stored at sample index `i` of a raw byte buffer
(little-endian). -/
def sampleAt (buf : List Nat) (i : Nat) : Int :=
  toInt16 (buf.getD (2 * i) 0 + 256 * buf.getD (2 * i + 1) 0)

/-- Overwrite the prefix of a decode buffer with freshly read bytes. -/
def writeBytes (buf chunk : List Nat) : List Nat :=
  chunk ++ buf.drop chunk.length

/-- The volume-scaled accumulation loop
`for (i = 0; i < mixBufferSize && bufferPos < mixBufferSize; i++)
   mixBuffer[i] += buffer[bufferPos++] * volume;`
translated with fuel = `mixBufferSize - i` (the loop runs at most
`mixBufferSize` iterations, so initial fuel `mixBufferSize` at `i = 0` is
exact). -/
def mixLoop (buf : List Nat) (vol : ℚ) :
    Nat → Nat → Nat → List Int → List Int × Nat
  | 0, _, bp, mb => (mb, bp)
  | fuel + 1, i, bp, mb =>
    if i < mixBufferSize ∧ bp < mixBufferSize then
      mixLoop buf vol fuel (i + 1) (bp + 1)
        (mb.set i (i16ofInt (ratTrunc ((mb.getD i 0 : ℚ) + (sampleAt buf bp : ℚ) * vol))))
    else (mb, bp)

/-- Clear both status flags (the body of `stop` as it acts on the track slot;
inside `mixTrack` the guarding `isValidTrack` always holds). -/
def stopFlags (tr : AudioTrack) : AudioTrack :=
  { tr with isPlaying := false, isPaused := false }

/-- Callback invocation as a local event list. -/
def emitIf (hcb : Bool) (t : Int) (e : WavPlayerEvent) :
    List (Int × WavPlayerEvent) :=
  if hcb then [(t, e)] else []

/-- The tail of `mixTrack` after a (possibly skipped) refill: run the
accumulation loop and report the track as active. -/
def mixPhase (tr : AudioTrack) (mb : List Int) :
    AudioTrack × List Int × List (Int × WavPlayerEvent) × Bool :=
  let r := mixLoop tr.buffer tr.volume mixBufferSize 0 tr.bufferPos mb
  ({ tr with bufferPos := r.2 }, r.1, [], true)

/-- The clamped sample count requested on a refill: the local `samplesToRead`
of `WavPlayer::mixTrack` (initialized to `mixBufferSize` and clamped to the
remaining byte budget for bounded tracks). -/
def samplesToRead (tr : AudioTrack) : Nat :=
  if 0 < tr.dataSize then min mixBufferSize (u32sub tr.dataSize tr.position / 2)
  else mixBufferSize

/-- The track slot after a refill read from its stream: stream advanced,
buffer prefix overwritten, `bufferPos = 0`, `position += bytesRead` (these
assignments happen before the zero-read check in the C++ code). -/
def refillTrack (tr : AudioTrack) (st : ByteStream) : AudioTrack :=
  { tr with
      stream := some (st.read (samplesToRead tr * 2)).2
      buffer := writeBytes tr.buffer (st.read (samplesToRead tr * 2)).1
      bufferPos := 0
      position := (tr.position + (st.read (samplesToRead tr * 2)).1.length) % U32 }

/-- WavPlayer::mixTrack, acting on one track slot and the shared mix buffer;
returns the updated slot, the updated mix buffer, the callback invocations and
the boolean the C++ function returns. -/
def mixTrack (hcb : Bool) (trackNum : Nat) (tr : AudioTrack) (mb : List Int) :
    AudioTrack × List Int × List (Int × WavPlayerEvent) × Bool :=
  if mixBufferSize ≤ tr.bufferPos then
    if 0 < tr.dataSize ∧ samplesToRead tr = 0 then
      (stopFlags tr, mb, emitIf hcb trackNum .TRACK_STOPPED, false)
    else
      match tr.stream with
      | none => (tr, mb, [], false)
      | some st =>
        if (st.read (samplesToRead tr * 2)).1.length = 0 then
          (stopFlags (refillTrack tr st), mb, emitIf hcb trackNum .TRACK_STOPPED, false)
        else mixPhase (refillTrack tr st) mb
  else mixPhase tr mb

/-- The track loop of `WavPlayer::tick`, threading the shared mix buffer and
accumulating the `anyActive` disjunction and the emitted events in program
order. -/
def tickTracks (hcb : Bool) : List AudioTrack → Nat → List Int →
    List AudioTrack × List Int × List (Int × WavPlayerEvent) × Bool
  | [], _, mb => ([], mb, [], false)
  | tr :: rest, i, mb =>
    if tr.isPlaying && !tr.isPaused then
      let r := mixTrack hcb i tr mb
      let rr := tickTracks hcb rest (i + 1) r.2.1
      (r.1 :: rr.1, rr.2.1, r.2.2.1 ++ rr.2.2.1, r.2.2.2 || rr.2.2.2)
    else
      let rr := tickTracks hcb rest (i + 1) mb
      (tr :: rr.1, rr.2.1, rr.2.2.1, rr.2.2.2)

/-- The shared mix buffer as zeroed by the `memset` at the start of every
tick. -/
def zeroMix : List Int := List.replicate mixBufferSize 0

/-- WavPlayer::tick. -/
def WavPlayer.tick (p : WavPlayer) : WavPlayer × Bool :=
  if p.initialized = false then (p, false)
  else
    let r := tickTracks p.hasCallback p.tracks 0 zeroMix
    let p1 : WavPlayer :=
      { p with tracks := r.1, mixBuffer := r.2.1, events := p.events ++ r.2.2.1 }
    if r.2.2.2 then ({ p1 with sink := p1.sink ++ [r.2.1] }, true)
    else (p1, true)

/-- Iterated ticks (discarding the boolean result). -/
def tickIter (p : WavPlayer) : Nat → WavPlayer
  | 0 => p
  | k + 1 => tickIter (p.tick).1 k

/-! Public operation sequences, for reachability-style statements. -/

/-- A public operation of the control surface. -/
inductive WavOp
  | opStart
  | opCancel
  | opTick
  | opPlay (t : Int) (s : Option ByteStream) (ph : Bool) (ds : Nat)
  | opPause (t : Int)
  | opResume (t : Int)
  | opStop (t : Int)
  | opSetVolume (t : Int) (v : ℚ)
  | opOnEvent (b : Bool)

/-- Apply one public operation (return values discarded). -/
def applyOp (p : WavPlayer) : WavOp → WavPlayer
  | .opStart => (p.start).1
  | .opCancel => (p.cancel).1
  | .opTick => (p.tick).1
  | .opPlay t s ph ds => (p.play t s ph ds).1
  | .opPause t => p.pause t
  | .opResume t => p.resume t
  | .opStop t => p.stop t
  | .opSetVolume t v => p.setVolume t v
  | .opOnEvent b => p.onEvent b

/-- Apply a sequence of public operations. -/
def applyOps (ops : List WavOp) (p : WavPlayer) : WavPlayer :=
  ops.foldl applyOp p

/-! Basic state-access lemmas. -/

@[simp]
theorem setTrack_initialized (p : WavPlayer) (n : Nat) (tr : AudioTrack) :
    (p.setTrack n tr).initialized = p.initialized := rfl

@[simp]
theorem setTrack_hasCallback (p : WavPlayer) (n : Nat) (tr : AudioTrack) :
    (p.setTrack n tr).hasCallback = p.hasCallback := rfl

@[simp]
theorem setTrack_events (p : WavPlayer) (n : Nat) (tr : AudioTrack) :
    (p.setTrack n tr).events = p.events := rfl

@[simp]
theorem emit_initialized (p : WavPlayer) (t : Int) (e : WavPlayerEvent) :
    (p.emit t e).initialized = p.initialized := by
  unfold WavPlayer.emit; split <;> rfl

@[simp]
theorem emit_tracks (p : WavPlayer) (t : Int) (e : WavPlayerEvent) :
    (p.emit t e).tracks = p.tracks := by
  unfold WavPlayer.emit; split <;> rfl

@[simp]
theorem emit_hasCallback (p : WavPlayer) (t : Int) (e : WavPlayerEvent) :
    (p.emit t e).hasCallback = p.hasCallback := by
  unfold WavPlayer.emit; split <;> rfl

theorem emit_events (p : WavPlayer) (t : Int) (e : WavPlayerEvent) :
    (p.emit t e).events = p.events ++ (if p.hasCallback then [(t, e)] else []) := by
  unfold WavPlayer.emit; split <;> simp_all

@[simp]
theorem setTrack_isValidTrack (p : WavPlayer) (n : Nat) (tr : AudioTrack) (u : Int) :
    (p.setTrack n tr).isValidTrack u = p.isValidTrack u := rfl

@[simp]
theorem emit_isValidTrack (p : WavPlayer) (t : Int) (e : WavPlayerEvent) (u : Int) :
    (p.emit t e).isValidTrack u = p.isValidTrack u := by
  unfold WavPlayer.isValidTrack; rw [emit_initialized]

theorem isValidTrack_toNat_lt (p : WavPlayer) (t : Int)
    (h : p.isValidTrack t = true) (hlen : p.tracks.length = MAX_TRACKS) :
    t.toNat < p.tracks.length := by
  simp only [WavPlayer.isValidTrack, Bool.and_eq_true, decide_eq_true_eq] at h
  rw [hlen]
  unfold MAX_TRACKS at *
  omega

theorem getTrack_setTrack_eq (p : WavPlayer) (t : Int) (tr : AudioTrack)
    (h : t.toNat < p.tracks.length) : (p.setTrack t.toNat tr).getTrack t = tr := by
  simp [WavPlayer.getTrack, WavPlayer.setTrack, List.getD_eq_getElem?_getD,
    List.getElem?_set_self', List.getElem?_eq_getElem, h]

theorem getTrack_emit (p : WavPlayer) (t : Int) (e : WavPlayerEvent) (u : Int) :
    (p.emit t e).getTrack u = p.getTrack u := by
  unfold WavPlayer.getTrack; rw [emit_tracks]

/-! C9 — a track is never reported as both Playing and Paused. -/

/-- C9: for every state reachable by any sequence of public operations from a
fresh engine, and every track number, `isPlaying` and `isPaused` are never
both true (they demand opposite values of the paused flag). -/
theorem playing_paused_exclusive (ops : List WavOp) (t : Int) :
    (WavPlayer.isPlaying (applyOps ops mkWavPlayer) t &&
      WavPlayer.isPaused (applyOps ops mkWavPlayer) t) = false := by
  cases h : ((applyOps ops mkWavPlayer).getTrack t).isPaused <;>
    simp [WavPlayer.isPlaying, WavPlayer.isPaused, h]

/-! C8 — volume clamping. -/

theorem ratConstrain_eq_clamp (v : ℚ) : ratConstrain v 0 1 = max 0 (min v 1) := by
  unfold ratConstrain
  rw [min_def, max_def]
  split_ifs <;> linarith

/-- C8: on a valid track of a started engine `setVolume` stores the value
clamped to the interval from 0 to 1, so that -5 reads back as 0 and 5 reads
back as 1, and `getVolume` returns 0 for any invalid track index. -/
theorem volume_clamp (p : WavPlayer) (t : Int) (h : p.isValidTrack t = true)
    (hlen : p.tracks.length = MAX_TRACKS) :
    (p.setVolume t (-5)).getVolume t = 0 ∧
    (p.setVolume t 5).getVolume t = 1 ∧
    (∀ v : ℚ, (p.setVolume t v).getVolume t = max 0 (min v 1)) ∧
    (∀ (q : WavPlayer) (u : Int), q.isValidTrack u = false → q.getVolume u = 0) := by
  have hk : ∀ v : ℚ, (p.setVolume t v).getVolume t = max 0 (min v 1) := by
    intro v
    unfold WavPlayer.setVolume WavPlayer.getVolume
    rw [if_pos h]
    rw [setTrack_isValidTrack, if_pos h,
      getTrack_setTrack_eq p t _ (isValidTrack_toNat_lt p t h hlen)]
    exact ratConstrain_eq_clamp v
  refine ⟨?_, ?_, hk, ?_⟩
  · rw [hk]; norm_num
  · rw [hk]; norm_num
  · intro q u hq
    unfold WavPlayer.getVolume
    rw [hq]
    simp

/-- C8 witness: concrete instantiation on track 0 of a started engine. -/
theorem volume_clamp_witness :
    (((mkWavPlayer.start).1.setVolume 0 (-5)).getVolume 0 = 0 ∧
      ((mkWavPlayer.start).1.setVolume 0 5).getVolume 0 = 1) := by
  have h := volume_clamp (mkWavPlayer.start).1 0 (by decide) (by decide)
  exact ⟨h.1, h.2.1⟩

/-! C4 — pause and resume (corrected: the code guards only on the paused
flag, never on the playing flag). -/

/-- C4 counterexample: on a started engine with a callback, `pause` on track 0
while the track is not Playing is not a no-op — it sets the paused flag and
emits TRACK_PAUSED, contradicting the claim that pause is a no-op when the
track is not Playing. -/
theorem pause_on_stopped_cex :
    ((mkWavPlayer.start).1.onEvent true).isPlaying 0 = false ∧
    ((((mkWavPlayer.start).1.onEvent true).pause 0).getTrack 0).isPaused = true ∧
    (((mkWavPlayer.start).1.onEvent true).pause 0).events =
      [((0 : Int), WavPlayerEvent.TRACK_PAUSED)] := by
  decide

theorem pause_not_noop (p : WavPlayer) (t : Int)
    (hv : p.isValidTrack t = true) (hpa : (p.getTrack t).isPaused = false) :
    p.pause t =
      (p.setTrack t.toNat { p.getTrack t with isPaused := true }).emit t
        .TRACK_PAUSED := by
  unfold WavPlayer.pause
  rw [if_neg]
  simp [hv, hpa]

theorem resume_not_noop (p : WavPlayer) (t : Int)
    (hv : p.isValidTrack t = true) (hpa : (p.getTrack t).isPaused = true) :
    p.resume t =
      (p.setTrack t.toNat { p.getTrack t with isPaused := false }).emit t
        .TRACK_RESUMED := by
  unfold WavPlayer.resume
  rw [if_neg]
  simp [hv, hpa]

/-- C4 (amended): `pause` moves a Playing track to Paused; it is a no-op
exactly when the track is invalid or its paused flag is already set — in
particular on a valid non-Playing track with a clear paused flag it still sets
the flag and emits TRACK_PAUSED.  `resume` moves a Paused track back to
Playing; it is a no-op exactly when the track is invalid or the paused flag is
clear. -/
theorem pause_resume_behavior (p : WavPlayer) (t : Int)
    (hlen : p.tracks.length = MAX_TRACKS) :
    (p.isPlaying t = true →
      (p.pause t).isPaused t = true ∧ (p.pause t).isPlaying t = false) ∧
    (p.isValidTrack t = false ∨ (p.getTrack t).isPaused = true → p.pause t = p) ∧
    (p.isValidTrack t = true → (p.getTrack t).isPaused = false →
      ((p.pause t).getTrack t).isPaused = true ∧
      (p.pause t).events = p.events ++
        (if p.hasCallback then [(t, WavPlayerEvent.TRACK_PAUSED)] else [])) ∧
    (p.isPaused t = true → (p.resume t).isPlaying t = true) ∧
    (p.isValidTrack t = false ∨ (p.getTrack t).isPaused = false → p.resume t = p) := by
  refine ⟨?_, ?_, ?_, ?_, ?_⟩
  · intro hp
    have hv : p.isValidTrack t = true := by
      simp only [WavPlayer.isPlaying, Bool.and_eq_true] at hp
      exact hp.1.1
    have hpa : (p.getTrack t).isPaused = false := by
      simp only [WavPlayer.isPlaying, Bool.and_eq_true, Bool.not_eq_eq_eq_not,
        Bool.not_true] at hp
      exact hp.2
    have hpl : (p.getTrack t).isPlaying = true := by
      simp only [WavPlayer.isPlaying, Bool.and_eq_true] at hp
      exact hp.1.2
    have hget : ((p.pause t).getTrack t) = { p.getTrack t with isPaused := true } := by
      rw [pause_not_noop p t hv hpa, getTrack_emit,
        getTrack_setTrack_eq p t _ (isValidTrack_toNat_lt p t hv hlen)]
    have hvv : (p.pause t).isValidTrack t = true := by
      rw [pause_not_noop p t hv hpa, emit_isValidTrack, setTrack_isValidTrack]
      exact hv
    constructor
    · unfold WavPlayer.isPaused
      rw [hvv, hget]
      simp [hpl]
    · unfold WavPlayer.isPlaying
      rw [hvv, hget]
      simp
  · intro h
    unfold WavPlayer.pause
    rcases h with h | h
    · rw [h]; simp
    · rw [h]; simp
  · intro hv hpa
    have hget : ((p.pause t).getTrack t) = { p.getTrack t with isPaused := true } := by
      rw [pause_not_noop p t hv hpa, getTrack_emit,
        getTrack_setTrack_eq p t _ (isValidTrack_toNat_lt p t hv hlen)]
    refine ⟨by rw [hget], ?_⟩
    rw [pause_not_noop p t hv hpa, emit_events, setTrack_events, setTrack_hasCallback]
  · intro hp
    have hv : p.isValidTrack t = true := by
      simp only [WavPlayer.isPaused, Bool.and_eq_true] at hp
      exact hp.1.1
    have hpa : (p.getTrack t).isPaused = true := by
      simp only [WavPlayer.isPaused, Bool.and_eq_true] at hp
      exact hp.2
    have hpl : (p.getTrack t).isPlaying = true := by
      simp only [WavPlayer.isPaused, Bool.and_eq_true] at hp
      exact hp.1.2
    have hget : ((p.resume t).getTrack t) = { p.getTrack t with isPaused := false } := by
      rw [resume_not_noop p t hv hpa, getTrack_emit,
        getTrack_setTrack_eq p t _ (isValidTrack_toNat_lt p t hv hlen)]
    have hvv : (p.resume t).isValidTrack t = true := by
      rw [resume_not_noop p t hv hpa, emit_isValidTrack, setTrack_isValidTrack]
      exact hv
    unfold WavPlayer.isPlaying
    rw [hvv, hget]
    simp [hpl]
  · intro h
    unfold WavPlayer.resume
    rcases h with h | h
    · rw [h]; simp
    · rw [h]; simp

theorem pause_noop (p : WavPlayer) (t : Int)
    (h : p.isValidTrack t = false ∨ (p.getTrack t).isPaused = true) :
    p.pause t = p := by
  unfold WavPlayer.pause
  rcases h with h | h
  · rw [h]; simp
  · rw [h]; simp

theorem resume_noop (p : WavPlayer) (t : Int)
    (h : p.isValidTrack t = false ∨ (p.getTrack t).isPaused = false) :
    p.resume t = p := by
  unfold WavPlayer.resume
  rcases h with h | h
  · rw [h]; simp
  · rw [h]; simp

theorem stop_valid (p : WavPlayer) (t : Int) (hv : p.isValidTrack t = true) :
    p.stop t =
      (p.setTrack t.toNat
        { p.getTrack t with isPlaying := false, isPaused := false }).emit t
        .TRACK_STOPPED := by
  unfold WavPlayer.stop
  rw [if_pos hv]

/-- C4 witness: the amended behavior at a concrete started engine — pausing a
Playing track 0 makes it Paused, and resuming returns it to Playing. -/
theorem pause_resume_behavior_witness :
    (((((mkWavPlayer.start).1.play 0 (some ⟨[1, 1], 0⟩) false 0).1).pause 0).isPaused 0
      = true) ∧
    ((((mkWavPlayer.start).1.play 0 (some ⟨[1, 1], 0⟩) false 0).1).pause 0).pause 0 =
      (((mkWavPlayer.start).1.play 0 (some ⟨[1, 1], 0⟩) false 0).1).pause 0 := by
  refine ⟨?_, ?_⟩
  · exact ((pause_resume_behavior _ 0 (by decide)).1 (by decide)).1
  · exact (pause_resume_behavior _ 0 (by decide)).2.1 (Or.inr (by decide))

/-! C3 — lifecycle events (corrected: `stop` on a valid track always emits
TRACK_STOPPED, even when the track is already Stopped). -/

/-- C3 counterexample: on a started engine with a callback, track 0 is already
Stopped, yet `stop(0)` emits a TRACK_STOPPED event — contradicting the claim
that an operation emits an event only when it changes the track's state. -/
theorem stop_on_stopped_emits_cex :
    ((mkWavPlayer.start).1.onEvent true).isPlaying 0 = false ∧
    ((mkWavPlayer.start).1.onEvent true).isPaused 0 = false ∧
    (((mkWavPlayer.start).1.onEvent true).stop 0).events =
      [((0 : Int), WavPlayerEvent.TRACK_STOPPED)] := by
  decide

/-- C3 (amended): with a callback registered, each lifecycle call emits
exactly one event, but under the code's own guards rather than a
state-change test: `pause` emits TRACK_PAUSED exactly when the track is valid
and its paused flag is clear (even if not Playing), `resume` emits
TRACK_RESUMED exactly when valid and the flag is set, `play` emits
TRACK_STARTED exactly when it succeeds, and `stop` on a valid track always
emits TRACK_STOPPED, even when the track is already Stopped.  Calling `pause`
twice in a row emits the event only once (the second call is a no-op). -/
theorem lifecycle_events (p : WavPlayer) (t : Int)
    (hcb : p.hasCallback = true) (hlen : p.tracks.length = MAX_TRACKS) :
    ((p.stop t).events = p.events ++
      (if p.isValidTrack t then [(t, WavPlayerEvent.TRACK_STOPPED)] else [])) ∧
    ((p.pause t).events = p.events ++
      (if p.isValidTrack t && !(p.getTrack t).isPaused
        then [(t, WavPlayerEvent.TRACK_PAUSED)] else [])) ∧
    ((p.resume t).events = p.events ++
      (if p.isValidTrack t && (p.getTrack t).isPaused
        then [(t, WavPlayerEvent.TRACK_RESUMED)] else [])) ∧
    ((p.pause t).pause t = p.pause t) ∧
    (∀ (s : Option ByteStream) (ph : Bool) (ds : Nat),
      ((p.play t s ph ds).1).events = p.events ++
        (if (p.play t s ph ds).2 then [(t, WavPlayerEvent.TRACK_STARTED)] else [])) := by
  refine ⟨?_, ?_, ?_, ?_, ?_⟩
  · by_cases hv : p.isValidTrack t = true
    · rw [stop_valid p t hv, emit_events, setTrack_events, setTrack_hasCallback,
        hcb, if_pos hv]
      simp
    · have hv' : p.isValidTrack t = false := by
        cases h : p.isValidTrack t
        · rfl
        · exact absurd h hv
      unfold WavPlayer.stop
      rw [hv']
      simp
  · by_cases hv : p.isValidTrack t = true
    · by_cases hpa : (p.getTrack t).isPaused = true
      · rw [pause_noop p t (Or.inr hpa), hv, hpa]
        simp
      · have hpa' : (p.getTrack t).isPaused = false := by
          cases h : (p.getTrack t).isPaused
          · rfl
          · exact absurd h hpa
        rw [pause_not_noop p t hv hpa', emit_events, setTrack_events,
          setTrack_hasCallback, hcb, hv, hpa']
        simp
    · have hv' : p.isValidTrack t = false := by
        cases h : p.isValidTrack t
        · rfl
        · exact absurd h hv
      rw [pause_noop p t (Or.inl hv'), hv']
      simp
  · by_cases hv : p.isValidTrack t = true
    · by_cases hpa : (p.getTrack t).isPaused = true
      · rw [resume_not_noop p t hv hpa, emit_events, setTrack_events,
          setTrack_hasCallback, hcb, hv, hpa]
        simp
      · have hpa' : (p.getTrack t).isPaused = false := by
          cases h : (p.getTrack t).isPaused
          · rfl
          · exact absurd h hpa
        rw [resume_noop p t (Or.inr hpa'), hv, hpa']
        simp
    · have hv' : p.isValidTrack t = false := by
        cases h : p.isValidTrack t
        · rfl
        · exact absurd h hv
      rw [resume_noop p t (Or.inl hv'), hv']
      simp
  · by_cases hv : p.isValidTrack t = true
    · by_cases hpa : (p.getTrack t).isPaused = true
      · rw [pause_noop p t (Or.inr hpa), pause_noop p t (Or.inr hpa)]
      · have hpa' : (p.getTrack t).isPaused = false := by
          cases h : (p.getTrack t).isPaused
          · rfl
          · exact absurd h hpa
        have hget : ((p.pause t).getTrack t).isPaused = true := by
          rw [pause_not_noop p t hv hpa', getTrack_emit,
            getTrack_setTrack_eq p t _ (isValidTrack_toNat_lt p t hv hlen)]
        exact pause_noop (p.pause t) t (Or.inr hget)
    · have hv' : p.isValidTrack t = false := by
        cases h : p.isValidTrack t
        · rfl
        · exact absurd h hv
      rw [pause_noop p t (Or.inl hv'), pause_noop p t (Or.inl hv')]
  · intro s ph ds
    rcases s with _ | st
    · have hnone : p.play t none ph ds = (p, false) := by
        unfold WavPlayer.play
        rw [if_pos (Or.inr (Or.inr (Or.inr rfl)))]
      rw [hnone]
      simp
    · by_cases hg : (t < 0 ∨ (MAX_TRACKS : Int) ≤ t ∨ p.initialized = false ∨
          (some st : Option ByteStream) = none)
      · have hfail : p.play t (some st) ph ds = (p, false) := by
          unfold WavPlayer.play
          rw [if_pos hg]
        rw [hfail]
        simp
      · cases ph
        · have hsucc : p.play t (some st) false ds =
              ((p.setTrack t.toNat
                { stream := some st
                  isPlaying := true
                  isPaused := false
                  dataSize := if 0 < ds % U32 then ds % U32 - 0 else 0
                  position := 0
                  volume := (p.getTrack t).volume
                  buffer := (p.getTrack t).buffer
                  bufferPos := mixBufferSize
                  parseWavHeader := false }).emit t .TRACK_STARTED, true) := by
            unfold WavPlayer.play
            rw [if_neg hg]
            simp
          rw [hsucc]
          rw [emit_events, setTrack_events, setTrack_hasCallback, hcb]
        · by_cases hsk : (skipWavHeader st).1 = false
          · have hfail : p.play t (some st) true ds = (p, false) := by
              unfold WavPlayer.play
              rw [if_neg hg]
              simp [hsk]
            rw [hfail]
            simp
          · have hsk' : (skipWavHeader st).1 = true := by
              cases h : (skipWavHeader st).1
              · exact absurd h hsk
              · rfl
            have hsucc : p.play t (some st) true ds =
                ((p.setTrack t.toNat
                  { stream := some (skipWavHeader st).2
                    isPlaying := true
                    isPaused := false
                    dataSize := if 44 < ds % U32 then ds % U32 - 44 else 0
                    position := 0
                    volume := (p.getTrack t).volume
                    buffer := (p.getTrack t).buffer
                    bufferPos := mixBufferSize
                    parseWavHeader := true }).emit t .TRACK_STARTED, true) := by
              unfold WavPlayer.play
              rw [if_neg hg]
              simp [hsk']
            rw [hsucc]
            rw [emit_events, setTrack_events, setTrack_hasCallback, hcb]

/-- C3 witness: concrete instantiation — on a started engine with a callback,
stopping track 0 appends one TRACK_STOPPED, and pausing twice appends
TRACK_PAUSED only once. -/
theorem lifecycle_events_witness :
    ((((mkWavPlayer.start).1.onEvent true).stop 0).events =
      [((0 : Int), WavPlayerEvent.TRACK_STOPPED)]) ∧
    ((((mkWavPlayer.start).1.onEvent true).pause 0).pause 0 =
      ((mkWavPlayer.start).1.onEvent true).pause 0) := by
  have h := lifecycle_events ((mkWavPlayer.start).1.onEvent true) 0 (by decide) (by decide)
  refine ⟨?_, h.2.2.2.1⟩
  rw [h.1]
  decide

/-! C6 — play rejection paths leave the engine unchanged. -/

/-- C6: `play` returns false and leaves the whole engine state (hence the
track's status, volume, source and buffer accounting) unchanged whenever the
track index is out of range, the engine is not started, or the source is null;
and when header parsing is requested and fails, `play` also returns false
without mutating the engine. -/
theorem play_rejects (p : WavPlayer) (t : Int) (s : Option ByteStream)
    (ph : Bool) (ds : Nat) :
    ((t < 0 ∨ (MAX_TRACKS : Int) ≤ t ∨ p.initialized = false ∨ s = none) →
      p.play t s ph ds = (p, false)) ∧
    (∀ st : ByteStream, s = some st → ph = true → (skipWavHeader st).1 = false →
      p.play t s ph ds = (p, false)) := by
  constructor
  · intro hg
    unfold WavPlayer.play
    rw [if_pos hg]
  · intro st hs hph hsk
    subst hs
    subst hph
    by_cases hg : (t < 0 ∨ (MAX_TRACKS : Int) ≤ t ∨ p.initialized = false ∨
        (some st : Option ByteStream) = none)
    · unfold WavPlayer.play
      rw [if_pos hg]
    · unfold WavPlayer.play
      rw [if_neg hg]
      simp [hsk]

/-- C6 witness: a negative track index is rejected on a never-started engine,
and a malformed header (stream too short for the 12-byte prologue) makes
`play` fail on a started engine, both without any state change. -/
theorem play_rejects_witness :
    (mkWavPlayer.play (-1) (some ⟨[], 0⟩) false 0 = (mkWavPlayer, false)) ∧
    ((mkWavPlayer.start).1.play 0 (some ⟨[1], 0⟩) true 0 =
      ((mkWavPlayer.start).1, false)) := by
  constructor
  · exact (play_rejects mkWavPlayer (-1) (some ⟨[], 0⟩) false 0).1
      (Or.inl (by decide))
  · exact (play_rejects (mkWavPlayer.start).1 0 (some ⟨[1], 0⟩) true 0).2
      ⟨[1], 0⟩ rfl rfl (by decide)

/-! C5 — WAV header parser. -/

theorem read_data (s : ByteStream) (n : Nat) : (s.read n).2.data = s.data := rfl

theorem read_chunk (s : ByteStream) (n : Nat) :
    (s.read n).1 = (s.data.drop s.pos).take n := rfl

theorem read_pos (s : ByteStream) (n : Nat) :
    (s.read n).2.pos = s.pos + (s.read n).1.length := rfl

theorem read_length (s : ByteStream) (n : Nat) :
    (s.read n).1.length = min n (s.data.length - s.pos) := by
  simp [ByteStream.read]

theorem read_full_le (s : ByteStream) (n : Nat) (hn : 0 < n)
    (h : (s.read n).1.length = n) : s.pos + n ≤ s.data.length := by
  rw [read_length] at h
  omega

theorem findFmt_success (f : Nat) : ∀ s : ByteStream, (findFmt f s).1 = true →
    (findFmt f s).2.data = s.data ∧ s.pos + 8 ≤ (findFmt f s).2.pos := by
  induction f with
  | zero =>
    intro s h
    simp [findFmt] at h
  | succ f ih =>
    intro s h
    by_cases h8 : (s.read 8).1.length = 8
    · by_cases htag : (s.read 8).1.take 4 = fmtTag
      · have hres : findFmt (f + 1) s =
            (true, (s.read 8).2.seek ((s.read 8).2.position + le32 ((s.read 8).1.drop 4))) := by
          simp [findFmt, h8, htag]
        rw [hres]
        refine ⟨rfl, ?_⟩
        show s.pos + 8 ≤ (s.read 8).2.pos + le32 ((s.read 8).1.drop 4)
        rw [read_pos, h8]
        omega
      · have hres : findFmt (f + 1) s =
            findFmt f ((s.read 8).2.seek ((s.read 8).2.position + le32 ((s.read 8).1.drop 4))) := by
          simp [findFmt, h8, htag]
        rw [hres] at h ⊢
        obtain ⟨hd, hp⟩ := ih _ h
        refine ⟨hd, ?_⟩
        have hpos : ((s.read 8).2.seek ((s.read 8).2.position + le32 ((s.read 8).1.drop 4))).pos =
            s.pos + 8 + le32 ((s.read 8).1.drop 4) := by
          show (s.read 8).2.pos + le32 ((s.read 8).1.drop 4) =
            s.pos + 8 + le32 ((s.read 8).1.drop 4)
          rw [read_pos, h8]
        rw [hpos] at hp
        omega
    · simp [findFmt, h8] at h

theorem findData_success (f : Nat) : ∀ s : ByteStream, (findData f s).1 = true →
    (findData f s).2.data = s.data ∧ s.pos + 8 ≤ (findData f s).2.pos ∧
    (findData f s).2.pos ≤ s.data.length ∧
    (s.data.drop ((findData f s).2.pos - 8)).take 4 = dataTag := by
  induction f with
  | zero =>
    intro s h
    simp [findData] at h
  | succ f ih =>
    intro s h
    by_cases h8 : (s.read 8).1.length = 8
    · by_cases htag : (s.read 8).1.take 4 = dataTag
      · have hres : findData (f + 1) s = (true, (s.read 8).2) := by
          simp [findData, h8, htag]
        rw [hres]
        dsimp only
        have hpos : (s.read 8).2.pos = s.pos + 8 := by rw [read_pos, h8]
        refine ⟨rfl, by omega, ?_, ?_⟩
        · rw [hpos]
          exact read_full_le s 8 (by norm_num) h8
        · rw [hpos]
          have : s.pos + 8 - 8 = s.pos := by omega
          rw [this]
          rw [read_chunk] at htag
          rw [List.take_take] at htag
          simpa using htag
      · have hres : findData (f + 1) s =
            findData f ((s.read 8).2.seek ((s.read 8).2.position + le32 ((s.read 8).1.drop 4))) := by
          simp [findData, h8, htag]
        rw [hres] at h ⊢
        obtain ⟨hd, hp, hl, htg⟩ := ih _ h
        have hpos : ((s.read 8).2.seek ((s.read 8).2.position + le32 ((s.read 8).1.drop 4))).pos =
            s.pos + 8 + le32 ((s.read 8).1.drop 4) := by
          show (s.read 8).2.pos + le32 ((s.read 8).1.drop 4) =
            s.pos + 8 + le32 ((s.read 8).1.drop 4)
          rw [read_pos, h8]
        rw [hpos] at hp
        exact ⟨hd, by omega, hl, htg⟩
    · simp [findData, h8] at h

theorem findFmt_needs_bytes (f : Nat) (s : ByteStream)
    (h : s.data.length < s.pos + 8) : (findFmt (f + 1) s).1 = false := by
  have h8 : (s.read 8).1.length ≠ 8 := by
    rw [read_length]
    omega
  simp [findFmt, h8]

/-- C5: run on a source positioned at offset 0, the parser fails when fewer
than 12 prologue bytes are available, when the RIFF tag at offset 0 or the
WAVE tag at offset 8 mismatches, or when the first 8-byte chunk header cannot
be fully read (fewer than 20 bytes in total); and on success it leaves the
cursor in bounds, at least 28 bytes in (prologue + fmt header + data header),
positioned exactly just past an 8-byte chunk header whose tag is data — the
first raw-sample byte. -/
theorem skipWavHeader_spec (s : ByteStream) (h0 : s.pos = 0) :
    (s.data.length < 12 → (skipWavHeader s).1 = false) ∧
    (¬(s.data.take 4 = riffTag ∧ (s.data.drop 8).take 4 = waveTag) →
      (skipWavHeader s).1 = false) ∧
    (s.data.length < 20 → (skipWavHeader s).1 = false) ∧
    ((skipWavHeader s).1 = true →
      (skipWavHeader s).2.data = s.data ∧
      28 ≤ (skipWavHeader s).2.pos ∧
      (skipWavHeader s).2.pos ≤ s.data.length ∧
      (s.data.drop ((skipWavHeader s).2.pos - 8)).take 4 = dataTag) := by
  have hchunk : (s.read 12).1 = s.data.take 12 := by
    rw [read_chunk, h0]
    rfl
  have hlen12 : (s.read 12).1.length = min 12 s.data.length := by
    rw [read_length, h0, Nat.sub_zero]
  refine ⟨?_, ?_, ?_, ?_⟩
  · intro hshort
    have h12 : (s.read 12).1.length ≠ 12 := by omega
    simp [skipWavHeader, h12]
  · intro hmis
    by_cases h12 : (s.read 12).1.length = 12
    · have htags : ¬((s.read 12).1.take 4 = riffTag ∧
          ((s.read 12).1.drop 8).take 4 = waveTag) := by
        rw [hchunk, List.take_take, List.drop_take]
        intro hcon
        refine hmis ⟨by simpa using hcon.1, ?_⟩
        have := hcon.2
        rwa [List.take_take] at this
      simp [skipWavHeader, h12, htags]
    · simp [skipWavHeader, h12]
  · intro hshort
    by_cases h12 : (s.read 12).1.length = 12
    · have hfmt : (findFmt (s.data.length + 1) (s.read 12).2).1 = false := by
        rcases Nat.exists_eq_succ_of_ne_zero (n := s.data.length + 1) (by omega) with ⟨m, hm⟩
        rw [hm]
        apply findFmt_needs_bytes
        rw [read_pos, read_data, h12, h0]
        omega
      by_cases htags : ((s.read 12).1.take 4 = riffTag ∧
          ((s.read 12).1.drop 8).take 4 = waveTag)
      · simp [skipWavHeader, h12, htags, hfmt]
      · simp [skipWavHeader, h12, htags]
    · simp [skipWavHeader, h12]
  · intro hsucc
    by_cases h12 : (s.read 12).1.length = 12
    · by_cases htags : ((s.read 12).1.take 4 = riffTag ∧
          ((s.read 12).1.drop 8).take 4 = waveTag)
      · by_cases hfmt : (findFmt (s.data.length + 1) (s.read 12).2).1 = true
        · have hres : skipWavHeader s =
              findData (s.data.length + 1) (findFmt (s.data.length + 1) (s.read 12).2).2 := by
            simp [skipWavHeader, h12, htags, hfmt]
          rw [hres] at hsucc ⊢
          obtain ⟨hfd, hfp⟩ := findFmt_success _ _ hfmt
          obtain ⟨hd, hp, hl, htg⟩ := findData_success _ _ hsucc
          have hd2 : (s.read 12).2.data = s.data := read_data s 12
          have hp2 : (s.read 12).2.pos = 12 := by
            rw [read_pos, h12, h0]
          refine ⟨by rw [hd, hfd, hd2], ?_, ?_, ?_⟩
          · rw [hp2] at hfp
            omega
          · rwa [hfd, hd2] at hl
          · rwa [hfd, hd2] at htg
        · simp [skipWavHeader, h12, htags, hfmt] at hsucc
      · simp [skipWavHeader, h12, htags] at hsucc
    · simp [skipWavHeader, h12] at hsucc

/-- C5 witness: a concrete minimal RIFF/WAVE container — 12-byte prologue,
16-byte fmt chunk, then a 4-byte data chunk — parses successfully with the
cursor left at byte 44, the first raw-sample byte. -/
theorem skipWavHeader_spec_witness :
    (skipWavHeader ⟨riffTag ++ [36, 0, 0, 0] ++ waveTag ++ fmtTag ++ [16, 0, 0, 0] ++
        List.replicate 16 0 ++ dataTag ++ [4, 0, 0, 0] ++ [1, 2, 3, 4], 0⟩).1 = true ∧
    (skipWavHeader ⟨riffTag ++ [36, 0, 0, 0] ++ waveTag ++ fmtTag ++ [16, 0, 0, 0] ++
        List.replicate 16 0 ++ dataTag ++ [4, 0, 0, 0] ++ [1, 2, 3, 4], 0⟩).2.pos = 44 ∧
    28 ≤ (skipWavHeader ⟨riffTag ++ [36, 0, 0, 0] ++ waveTag ++ fmtTag ++ [16, 0, 0, 0] ++
        List.replicate 16 0 ++ dataTag ++ [4, 0, 0, 0] ++ [1, 2, 3, 4], 0⟩).2.pos := by
  refine ⟨by decide, by decide, ?_⟩
  exact ((skipWavHeader_spec ⟨riffTag ++ [36, 0, 0, 0] ++ waveTag ++ fmtTag ++
    [16, 0, 0, 0] ++ List.replicate 16 0 ++ dataTag ++ [4, 0, 0, 0] ++ [1, 2, 3, 4], 0⟩
    rfl).2.2.2 (by decide)).2.1

/-! Characterization of the per-track mix step. -/

/-- Track component of the mix step at the canonical zeroed buffer. -/
def stepTrack (hcb : Bool) (n : Nat) (tr : AudioTrack) : AudioTrack :=
  (mixTrack hcb n tr zeroMix).1

/-- Event component of the mix step at the canonical zeroed buffer. -/
def stepEvents (hcb : Bool) (n : Nat) (tr : AudioTrack) :
    List (Int × WavPlayerEvent) :=
  (mixTrack hcb n tr zeroMix).2.2.1

/-- Activity component of the mix step at the canonical zeroed buffer. -/
def stepActive (hcb : Bool) (n : Nat) (tr : AudioTrack) : Bool :=
  (mixTrack hcb n tr zeroMix).2.2.2

theorem mixLoop_snd_indep (buf : List Nat) (vol : ℚ) :
    ∀ (fuel i bp : Nat) (mb mb' : List Int),
      (mixLoop buf vol fuel i bp mb).2 = (mixLoop buf vol fuel i bp mb').2 := by
  intro fuel
  induction fuel with
  | zero => intro i bp mb mb'; rfl
  | succ f ih =>
    intro i bp mb mb'
    by_cases h : i < mixBufferSize ∧ bp < mixBufferSize
    · simp only [mixLoop, if_pos h]
      exact ih _ _ _ _
    · simp only [mixLoop, if_neg h]

theorem mixLoop_snd_eq (buf : List Nat) (vol : ℚ) :
    ∀ (fuel i bp : Nat) (mb : List Int), i ≤ bp → bp ≤ mixBufferSize →
      mixBufferSize ≤ i + fuel → (mixLoop buf vol fuel i bp mb).2 = mixBufferSize := by
  intro fuel
  induction fuel with
  | zero =>
    intro i bp mb h1 h2 h3
    simp only [mixLoop]
    omega
  | succ f ih =>
    intro i bp mb h1 h2 h3
    by_cases h : i < mixBufferSize ∧ bp < mixBufferSize
    · simp only [mixLoop, if_pos h]
      exact ih (i + 1) (bp + 1) _ (by omega) (by omega) (by omega)
    · simp only [mixLoop, if_neg h]
      omega

theorem mixPhase_track (tr : AudioTrack) (mb : List Int) :
    (mixPhase tr mb).1 =
      { tr with bufferPos := (mixLoop tr.buffer tr.volume mixBufferSize 0 tr.bufferPos mb).2 } := rfl

theorem mixPhase_events (tr : AudioTrack) (mb : List Int) :
    (mixPhase tr mb).2.2.1 = [] := rfl

theorem mixPhase_active (tr : AudioTrack) (mb : List Int) :
    (mixPhase tr mb).2.2.2 = true := rfl

theorem mixTrack_clampStop (hcb : Bool) (n : Nat) (tr : AudioTrack) (mb : List Int)
    (hbp : mixBufferSize ≤ tr.bufferPos) (hds : 0 < tr.dataSize)
    (hcl : samplesToRead tr = 0) :
    mixTrack hcb n tr mb =
      (stopFlags tr, mb, emitIf hcb n .TRACK_STOPPED, false) := by
  unfold mixTrack
  rw [if_pos hbp, if_pos ⟨hds, hcl⟩]

theorem mixTrack_noneStream (hcb : Bool) (n : Nat) (tr : AudioTrack) (mb : List Int)
    (hbp : mixBufferSize ≤ tr.bufferPos)
    (hno : ¬(0 < tr.dataSize ∧ samplesToRead tr = 0)) (hstream : tr.stream = none) :
    mixTrack hcb n tr mb = (tr, mb, [], false) := by
  unfold mixTrack
  rw [if_pos hbp, if_neg hno, hstream]

theorem mixTrack_zeroRead (hcb : Bool) (n : Nat) (tr : AudioTrack) (mb : List Int)
    (st : ByteStream) (hbp : mixBufferSize ≤ tr.bufferPos)
    (hno : ¬(0 < tr.dataSize ∧ samplesToRead tr = 0)) (hstream : tr.stream = some st)
    (hz : (st.read (samplesToRead tr * 2)).1.length = 0) :
    mixTrack hcb n tr mb =
      (stopFlags (refillTrack tr st), mb, emitIf hcb n .TRACK_STOPPED, false) := by
  unfold mixTrack
  rw [if_pos hbp, if_neg hno, hstream]
  dsimp only
  rw [if_pos hz]

theorem mixTrack_read (hcb : Bool) (n : Nat) (tr : AudioTrack) (mb : List Int)
    (st : ByteStream) (hbp : mixBufferSize ≤ tr.bufferPos)
    (hno : ¬(0 < tr.dataSize ∧ samplesToRead tr = 0)) (hstream : tr.stream = some st)
    (hz : (st.read (samplesToRead tr * 2)).1.length ≠ 0) :
    mixTrack hcb n tr mb = mixPhase (refillTrack tr st) mb := by
  unfold mixTrack
  rw [if_pos hbp, if_neg hno, hstream]
  dsimp only
  rw [if_neg hz]

theorem mixTrack_mix (hcb : Bool) (n : Nat) (tr : AudioTrack) (mb : List Int)
    (hbp : tr.bufferPos < mixBufferSize) :
    mixTrack hcb n tr mb = mixPhase tr mb := by
  unfold mixTrack
  rw [if_neg (by omega)]

theorem mixPhase_fst_mb (tr : AudioTrack) (mb mb' : List Int) :
    (mixPhase tr mb).1 = (mixPhase tr mb').1 := by
  rw [mixPhase_track, mixPhase_track,
    mixLoop_snd_indep tr.buffer tr.volume mixBufferSize 0 tr.bufferPos mb mb']

theorem mixTrack_fst_mb (hcb : Bool) (n : Nat) (tr : AudioTrack) (mb mb' : List Int) :
    (mixTrack hcb n tr mb).1 = (mixTrack hcb n tr mb').1 := by
  by_cases hbp : mixBufferSize ≤ tr.bufferPos
  · by_cases hstop : 0 < tr.dataSize ∧ samplesToRead tr = 0
    · rw [mixTrack_clampStop hcb n tr mb hbp hstop.1 hstop.2,
        mixTrack_clampStop hcb n tr mb' hbp hstop.1 hstop.2]
    · cases hstream : tr.stream with
      | none =>
        rw [mixTrack_noneStream hcb n tr mb hbp hstop hstream,
          mixTrack_noneStream hcb n tr mb' hbp hstop hstream]
      | some st =>
        by_cases hz : (st.read (samplesToRead tr * 2)).1.length = 0
        · rw [mixTrack_zeroRead hcb n tr mb st hbp hstop hstream hz,
            mixTrack_zeroRead hcb n tr mb' st hbp hstop hstream hz]
        · rw [mixTrack_read hcb n tr mb st hbp hstop hstream hz,
            mixTrack_read hcb n tr mb' st hbp hstop hstream hz]
          exact mixPhase_fst_mb _ mb mb'
  · have hbp' : tr.bufferPos < mixBufferSize := by omega
    rw [mixTrack_mix hcb n tr mb hbp', mixTrack_mix hcb n tr mb' hbp']
    exact mixPhase_fst_mb _ mb mb'

theorem mixTrack_events_mb (hcb : Bool) (n : Nat) (tr : AudioTrack) (mb mb' : List Int) :
    (mixTrack hcb n tr mb).2.2.1 = (mixTrack hcb n tr mb').2.2.1 := by
  by_cases hbp : mixBufferSize ≤ tr.bufferPos
  · by_cases hstop : 0 < tr.dataSize ∧ samplesToRead tr = 0
    · rw [mixTrack_clampStop hcb n tr mb hbp hstop.1 hstop.2,
        mixTrack_clampStop hcb n tr mb' hbp hstop.1 hstop.2]
    · cases hstream : tr.stream with
      | none =>
        rw [mixTrack_noneStream hcb n tr mb hbp hstop hstream,
          mixTrack_noneStream hcb n tr mb' hbp hstop hstream]
      | some st =>
        by_cases hz : (st.read (samplesToRead tr * 2)).1.length = 0
        · rw [mixTrack_zeroRead hcb n tr mb st hbp hstop hstream hz,
            mixTrack_zeroRead hcb n tr mb' st hbp hstop hstream hz]
        · rw [mixTrack_read hcb n tr mb st hbp hstop hstream hz,
            mixTrack_read hcb n tr mb' st hbp hstop hstream hz,
            mixPhase_events, mixPhase_events]
  · have hbp' : tr.bufferPos < mixBufferSize := by omega
    rw [mixTrack_mix hcb n tr mb hbp', mixTrack_mix hcb n tr mb' hbp',
      mixPhase_events, mixPhase_events]

theorem mixTrack_active_mb (hcb : Bool) (n : Nat) (tr : AudioTrack) (mb mb' : List Int) :
    (mixTrack hcb n tr mb).2.2.2 = (mixTrack hcb n tr mb').2.2.2 := by
  by_cases hbp : mixBufferSize ≤ tr.bufferPos
  · by_cases hstop : 0 < tr.dataSize ∧ samplesToRead tr = 0
    · rw [mixTrack_clampStop hcb n tr mb hbp hstop.1 hstop.2,
        mixTrack_clampStop hcb n tr mb' hbp hstop.1 hstop.2]
    · cases hstream : tr.stream with
      | none =>
        rw [mixTrack_noneStream hcb n tr mb hbp hstop hstream,
          mixTrack_noneStream hcb n tr mb' hbp hstop hstream]
      | some st =>
        by_cases hz : (st.read (samplesToRead tr * 2)).1.length = 0
        · rw [mixTrack_zeroRead hcb n tr mb st hbp hstop hstream hz,
            mixTrack_zeroRead hcb n tr mb' st hbp hstop hstream hz]
        · rw [mixTrack_read hcb n tr mb st hbp hstop hstream hz,
            mixTrack_read hcb n tr mb' st hbp hstop hstream hz,
            mixPhase_active, mixPhase_active]
  · have hbp' : tr.bufferPos < mixBufferSize := by omega
    rw [mixTrack_mix hcb n tr mb hbp', mixTrack_mix hcb n tr mb' hbp',
      mixPhase_active, mixPhase_active]

theorem mixTrack_fst_eq_stepTrack (hcb : Bool) (n : Nat) (tr : AudioTrack)
    (mb : List Int) : (mixTrack hcb n tr mb).1 = stepTrack hcb n tr :=
  mixTrack_fst_mb hcb n tr mb zeroMix

theorem mixTrack_events_eq_stepEvents (hcb : Bool) (n : Nat) (tr : AudioTrack)
    (mb : List Int) : (mixTrack hcb n tr mb).2.2.1 = stepEvents hcb n tr :=
  mixTrack_events_mb hcb n tr mb zeroMix

theorem mixTrack_active_eq_stepActive (hcb : Bool) (n : Nat) (tr : AudioTrack)
    (mb : List Int) : (mixTrack hcb n tr mb).2.2.2 = stepActive hcb n tr :=
  mixTrack_active_mb hcb n tr mb zeroMix

theorem mixTrack_events_shape (hcb : Bool) (n : Nat) (tr : AudioTrack)
    (mb : List Int) :
    (mixTrack hcb n tr mb).2.2.1 = [] ∨
    (mixTrack hcb n tr mb).2.2.1 = emitIf hcb n .TRACK_STOPPED := by
  by_cases hbp : mixBufferSize ≤ tr.bufferPos
  · by_cases hstop : 0 < tr.dataSize ∧ samplesToRead tr = 0
    · rw [mixTrack_clampStop hcb n tr mb hbp hstop.1 hstop.2]
      exact Or.inr rfl
    · cases hstream : tr.stream with
      | none =>
        rw [mixTrack_noneStream hcb n tr mb hbp hstop hstream]
        exact Or.inl rfl
      | some st =>
        by_cases hz : (st.read (samplesToRead tr * 2)).1.length = 0
        · rw [mixTrack_zeroRead hcb n tr mb st hbp hstop hstream hz]
          exact Or.inr rfl
        · rw [mixTrack_read hcb n tr mb st hbp hstop hstream hz]
          exact Or.inl (mixPhase_events _ _)
  · rw [mixTrack_mix hcb n tr mb (by omega)]
    exact Or.inl (mixPhase_events _ _)

theorem stepEvents_tags (hcb : Bool) (n : Nat) (tr : AudioTrack) :
    ∀ x ∈ stepEvents hcb n tr, x.1 = (n : Int) := by
  intro x hx
  rcases mixTrack_events_shape hcb n tr zeroMix with h | h
  · rw [stepEvents] at hx
    rw [h] at hx
    simp at hx
  · rw [stepEvents] at hx
    rw [h] at hx
    unfold emitIf at hx
    by_cases hc : hcb = true
    · rw [if_pos hc] at hx
      simp at hx
      rw [hx]
    · rw [if_neg hc] at hx
      simp at hx

/-! Characterization of the tick loop over the track array. -/

/-- The events emitted by one tick, per slot, in program order. -/
def evList (hcb : Bool) : List AudioTrack → Nat → List (Int × WavPlayerEvent)
  | [], _ => []
  | tr :: rest, i =>
    (if tr.isPlaying && !tr.isPaused then stepEvents hcb i tr else []) ++
      evList hcb rest (i + 1)

/-- The anyActive disjunction of one tick. -/
def anyList (hcb : Bool) : List AudioTrack → Nat → Bool
  | [], _ => false
  | tr :: rest, i =>
    (if tr.isPlaying && !tr.isPaused then stepActive hcb i tr else false) ||
      anyList hcb rest (i + 1)

theorem tickTracks_length (hcb : Bool) :
    ∀ (trs : List AudioTrack) (i : Nat) (mb : List Int),
      (tickTracks hcb trs i mb).1.length = trs.length := by
  intro trs
  induction trs with
  | nil => intro i mb; rfl
  | cons tr rest ih =>
    intro i mb
    by_cases h : (tr.isPlaying && !tr.isPaused) = true
    · simp only [tickTracks, if_pos h, List.length_cons, ih]
    · simp only [tickTracks, if_neg h, List.length_cons, ih]

theorem tickTracks_events (hcb : Bool) :
    ∀ (trs : List AudioTrack) (i : Nat) (mb : List Int),
      (tickTracks hcb trs i mb).2.2.1 = evList hcb trs i := by
  intro trs
  induction trs with
  | nil => intro i mb; rfl
  | cons tr rest ih =>
    intro i mb
    by_cases h : (tr.isPlaying && !tr.isPaused) = true
    · simp only [tickTracks, evList, if_pos h]
      rw [mixTrack_events_eq_stepEvents, ih]
    · simp only [tickTracks, evList, if_neg h]
      rw [ih]
      simp

theorem tickTracks_active (hcb : Bool) :
    ∀ (trs : List AudioTrack) (i : Nat) (mb : List Int),
      (tickTracks hcb trs i mb).2.2.2 = anyList hcb trs i := by
  intro trs
  induction trs with
  | nil => intro i mb; rfl
  | cons tr rest ih =>
    intro i mb
    by_cases h : (tr.isPlaying && !tr.isPaused) = true
    · simp only [tickTracks, anyList, if_pos h]
      rw [mixTrack_active_eq_stepActive, ih]
    · simp only [tickTracks, anyList, if_neg h]
      rw [ih]
      simp

theorem tickTracks_tracks (hcb : Bool) :
    ∀ (trs : List AudioTrack) (i : Nat) (mb : List Int) (j : Nat) (d : AudioTrack),
      j < trs.length →
      (tickTracks hcb trs i mb).1.getD j d =
        (if ((trs.getD j d).isPlaying && !(trs.getD j d).isPaused) = true
          then stepTrack hcb (i + j) (trs.getD j d) else trs.getD j d) := by
  intro trs
  induction trs with
  | nil =>
    intro i mb j d hj
    simp at hj
  | cons tr rest ih =>
    intro i mb j d hj
    cases j with
    | zero =>
      by_cases h : (tr.isPlaying && !tr.isPaused) = true
      · simp only [tickTracks, if_pos h, List.getD_cons_zero, Nat.add_zero]
        rw [mixTrack_fst_eq_stepTrack]
      · simp only [tickTracks, if_neg h, List.getD_cons_zero, Nat.add_zero]
    | succ j =>
      have hj' : j < rest.length := by
        simp at hj
        omega
      have hidx : i + 1 + j = i + (j + 1) := by omega
      by_cases h : (tr.isPlaying && !tr.isPaused) = true
      · simp only [tickTracks, if_pos h, List.getD_cons_succ]
        rw [ih (i + 1) _ j d hj', hidx]
      · simp only [tickTracks, if_neg h, List.getD_cons_succ]
        rw [ih (i + 1) _ j d hj', hidx]

theorem anyList_true_iff (hcb : Bool) :
    ∀ (trs : List AudioTrack) (i : Nat),
      anyList hcb trs i = true ↔
      ∃ j, j < trs.length ∧
        ((trs.getD j defaultTrack).isPlaying &&
          !(trs.getD j defaultTrack).isPaused) = true ∧
        stepActive hcb (i + j) (trs.getD j defaultTrack) = true := by
  intro trs
  induction trs with
  | nil =>
    intro i
    simp [anyList]
  | cons tr rest ih =>
    intro i
    simp only [anyList, Bool.or_eq_true]
    constructor
    · rintro (h | h)
      · by_cases hcond : (tr.isPlaying && !tr.isPaused) = true
        · rw [if_pos hcond] at h
          exact ⟨0, by simp, by simpa using hcond, by simpa using h⟩
        · rw [if_neg hcond] at h
          simp at h
      · obtain ⟨j, hj, hc, ha⟩ := (ih (i + 1)).1 h
        refine ⟨j + 1, by simpa using hj, by simpa using hc, ?_⟩
        have hidx : i + (j + 1) = i + 1 + j := by omega
        rw [hidx]
        simpa using ha
    · rintro ⟨j, hj, hc, ha⟩
      cases j with
      | zero =>
        left
        simp only [List.getD_cons_zero] at hc ha
        rw [if_pos hc]
        simpa using ha
      | succ j =>
        right
        refine (ih (i + 1)).2 ⟨j, by simpa using hj, by simpa using hc, ?_⟩
        have hidx : i + 1 + j = i + (j + 1) := by omega
        rw [hidx]
        simpa using ha

/-! Event counting. -/

/-- Number of occurrences of the event `(n, e)` in a callback trace. -/
def countEv (n : Nat) (e : WavPlayerEvent) (l : List (Int × WavPlayerEvent)) : Nat :=
  l.count ((n : Int), e)

theorem countEv_append (n : Nat) (e : WavPlayerEvent)
    (l1 l2 : List (Int × WavPlayerEvent)) :
    countEv n e (l1 ++ l2) = countEv n e l1 + countEv n e l2 := by
  unfold countEv
  exact List.count_append _ _ _

theorem countEv_stepEvents_ne (hcb : Bool) (m n : Nat) (e : WavPlayerEvent)
    (tr : AudioTrack) (hne : m ≠ n) : countEv n e (stepEvents hcb m tr) = 0 := by
  unfold countEv
  rw [List.count_eq_zero]
  intro hmem
  have htag := stepEvents_tags hcb m tr _ hmem
  simp at htag
  omega

theorem evList_count_lt (hcb : Bool) (e : WavPlayerEvent) :
    ∀ (trs : List AudioTrack) (i n : Nat), n < i →
      countEv n e (evList hcb trs i) = 0 := by
  intro trs
  induction trs with
  | nil =>
    intro i n h
    simp [evList, countEv]
  | cons tr rest ih =>
    intro i n h
    simp only [evList]
    rw [countEv_append, ih (i + 1) n (by omega)]
    by_cases hcond : (tr.isPlaying && !tr.isPaused) = true
    · rw [if_pos hcond, countEv_stepEvents_ne hcb i n e tr (by omega)]
    · rw [if_neg hcond]
      simp [countEv]

theorem evList_count (hcb : Bool) (e : WavPlayerEvent) :
    ∀ (trs : List AudioTrack) (j i : Nat), j < trs.length →
      countEv (i + j) e (evList hcb trs i) =
        (if ((trs.getD j defaultTrack).isPlaying &&
              !(trs.getD j defaultTrack).isPaused) = true
          then countEv (i + j) e (stepEvents hcb (i + j) (trs.getD j defaultTrack))
          else 0) := by
  intro trs
  induction trs with
  | nil =>
    intro j i hj
    simp at hj
  | cons tr rest ih =>
    intro j i hj
    cases j with
    | zero =>
      simp only [evList, List.getD_cons_zero, Nat.add_zero]
      rw [countEv_append, evList_count_lt hcb e rest (i + 1) i (by omega)]
      by_cases hcond : (tr.isPlaying && !tr.isPaused) = true
      · rw [if_pos hcond, if_pos hcond]
        omega
      · rw [if_neg hcond, if_neg hcond]
        simp [countEv]
    | succ j =>
      have hj' : j < rest.length := by
        simp at hj
        omega
      have hidx : i + (j + 1) = i + 1 + j := by omega
      simp only [evList, List.getD_cons_succ]
      rw [countEv_append, hidx, ih j (i + 1) hj']
      by_cases hcond : (tr.isPlaying && !tr.isPaused) = true
      · rw [if_pos hcond, countEv_stepEvents_ne hcb i (i + 1 + j) e tr (by omega),
          Nat.zero_add]
      · rw [if_neg hcond]
        simp [countEv]

/-! Characterization of one tick on an initialized engine. -/

theorem tick_char (p : WavPlayer) (hinit : p.initialized = true) :
    (p.tick).2 = true ∧
    (p.tick).1.initialized = true ∧
    (p.tick).1.hasCallback = p.hasCallback ∧
    (p.tick).1.tracks = (tickTracks p.hasCallback p.tracks 0 zeroMix).1 ∧
    (p.tick).1.events = p.events ++ evList p.hasCallback p.tracks 0 ∧
    (p.tick).1.sink = p.sink ++
      (if anyList p.hasCallback p.tracks 0 = true
        then [(tickTracks p.hasCallback p.tracks 0 zeroMix).2.1] else []) ∧
    (p.tick).1.mixBuffer = (tickTracks p.hasCallback p.tracks 0 zeroMix).2.1 := by
  by_cases hany : (tickTracks p.hasCallback p.tracks 0 zeroMix).2.2.2 = true
  · have hanyL : anyList p.hasCallback p.tracks 0 = true := by
      rw [← tickTracks_active p.hasCallback p.tracks 0 zeroMix]
      exact hany
    have heq : p.tick =
        ({ p with
            tracks := (tickTracks p.hasCallback p.tracks 0 zeroMix).1
            mixBuffer := (tickTracks p.hasCallback p.tracks 0 zeroMix).2.1
            events := p.events ++ (tickTracks p.hasCallback p.tracks 0 zeroMix).2.2.1
            sink := p.sink ++ [(tickTracks p.hasCallback p.tracks 0 zeroMix).2.1] },
          true) := by
      unfold WavPlayer.tick
      rw [if_neg (by rw [hinit]; simp)]
      dsimp only
      rw [if_pos hany]
    rw [heq]
    refine ⟨rfl, hinit, rfl, rfl, ?_, ?_, rfl⟩
    · dsimp only
      rw [tickTracks_events]
    · dsimp only
      rw [if_pos hanyL]
  · have hanyL : anyList p.hasCallback p.tracks 0 = false := by
      rw [← tickTracks_active p.hasCallback p.tracks 0 zeroMix]
      simpa using hany
    have heq : p.tick =
        ({ p with
            tracks := (tickTracks p.hasCallback p.tracks 0 zeroMix).1
            mixBuffer := (tickTracks p.hasCallback p.tracks 0 zeroMix).2.1
            events := p.events ++ (tickTracks p.hasCallback p.tracks 0 zeroMix).2.2.1 },
          true) := by
      unfold WavPlayer.tick
      rw [if_neg (by rw [hinit]; simp)]
      dsimp only
      rw [if_neg hany]
    rw [heq]
    refine ⟨rfl, hinit, rfl, rfl, ?_, ?_, rfl⟩
    · dsimp only
      rw [tickTracks_events]
    · dsimp only
      rw [hanyL]
      simp

/-! C2 — tick behavior (corrected: tick also returns false on an engine that
was started and then cancelled, so "returns false only if never started" is
wrong; the accurate guard is "not currently initialized"). -/

/-- C2 counterexample: `start()` succeeds, `cancel()` tears the engine down,
and the following `tick()` returns false even though the engine was started
earlier — refuting "tick returns false only if the engine was never
started". -/
theorem tick_false_after_cancel_cex :
    (mkWavPlayer.start).2 = true ∧
    ((mkWavPlayer.start).1.cancel).2 = true ∧
    ((((mkWavPlayer.start).1.cancel).1).tick).2 = false := by
  decide

/-- C2 (amended): `tick` returns false exactly when the engine is not
currently initialized (never started, or cancelled since), and then changes
nothing; on an initialized engine it returns true, rebuilds the mix buffer
from the zeroed buffer by mixing exactly the Playing, non-Paused tracks
(each other track is left untouched), and appends the mix buffer to the
Output Sink trace if and only if at least one track was actively mixed this
tick. -/
theorem tick_behavior (p : WavPlayer) :
    (p.initialized = false → p.tick = (p, false)) ∧
    (p.initialized = true →
      (p.tick).2 = true ∧
      ((∃ j, j < p.tracks.length ∧
          ((p.tracks.getD j defaultTrack).isPlaying &&
            !(p.tracks.getD j defaultTrack).isPaused) = true ∧
          stepActive p.hasCallback j (p.tracks.getD j defaultTrack) = true) →
        (p.tick).1.sink = p.sink ++ [(p.tick).1.mixBuffer]) ∧
      (¬(∃ j, j < p.tracks.length ∧
          ((p.tracks.getD j defaultTrack).isPlaying &&
            !(p.tracks.getD j defaultTrack).isPaused) = true ∧
          stepActive p.hasCallback j (p.tracks.getD j defaultTrack) = true) →
        (p.tick).1.sink = p.sink) ∧
      (∀ j, j < p.tracks.length →
        (p.tick).1.tracks.getD j defaultTrack =
          (if ((p.tracks.getD j defaultTrack).isPlaying &&
                !(p.tracks.getD j defaultTrack).isPaused) = true
            then stepTrack p.hasCallback j (p.tracks.getD j defaultTrack)
            else p.tracks.getD j defaultTrack))) := by
  constructor
  · intro h0
    unfold WavPlayer.tick
    rw [if_pos h0]
  · intro hinit
    obtain ⟨ht2, _, _, htr, _, hsink, hmb⟩ := tick_char p hinit
    refine ⟨ht2, ?_, ?_, ?_⟩
    · rintro ⟨j, hj, hcnd, hact⟩
      have hA : anyList p.hasCallback p.tracks 0 = true :=
        (anyList_true_iff p.hasCallback p.tracks 0).2
          ⟨j, hj, hcnd, by rw [Nat.zero_add]; exact hact⟩
      rw [hsink, if_pos hA, hmb]
    · intro hno
      have hA : anyList p.hasCallback p.tracks 0 = false := by
        cases hA : anyList p.hasCallback p.tracks 0
        · rfl
        · exfalso
          obtain ⟨j, hj, hcnd, hact⟩ := (anyList_true_iff p.hasCallback p.tracks 0).1 hA
          rw [Nat.zero_add] at hact
          exact hno ⟨j, hj, hcnd, hact⟩
      rw [hsink, hA]
      simp
    · intro j hj
      rw [htr, tickTracks_tracks p.hasCallback p.tracks 0 zeroMix j defaultTrack hj,
        Nat.zero_add]

/-- C2 witness: on a freshly started engine (no track playing) tick returns
true and transmits nothing to the sink. -/
theorem tick_behavior_witness :
    (((mkWavPlayer.start).1.tick).2 = true) ∧
    (((mkWavPlayer.start).1.tick).1.sink = (mkWavPlayer.start).1.sink) := by
  have h := (tick_behavior (mkWavPlayer.start).1).2 (by decide)
  refine ⟨h.1, h.2.2.1 ?_⟩
  rintro ⟨j, hj, hcnd, _⟩
  have hlen : ((mkWavPlayer.start).1).tracks.length = 4 := by decide
  rw [hlen] at hj
  interval_cases j <;> exact absurd hcnd (by decide)

/-! C7 — a zero-byte refill read stops the track and mixes nothing. -/

/-- C7: when a Playing, non-Paused track needs a refill (bufferPos at or past
the buffer end), is actually allowed to read (not already clamped to zero),
and its source delivers zero bytes (exhausted), one tick stops it (both flags
cleared), emits exactly one TRACK_STOPPED for it, and the track is inactive
this tick: its mix step leaves the shared mix buffer untouched and reports
false. -/
theorem zero_read_stops (p : WavPlayer) (i : Nat) (st : ByteStream)
    (hi : i < p.tracks.length)
    (hinit : p.initialized = true) (hcb : p.hasCallback = true)
    (hplay : (p.tracks.getD i defaultTrack).isPlaying = true)
    (hpause : (p.tracks.getD i defaultTrack).isPaused = false)
    (hbp : mixBufferSize ≤ (p.tracks.getD i defaultTrack).bufferPos)
    (hno : ¬(0 < (p.tracks.getD i defaultTrack).dataSize ∧
      samplesToRead (p.tracks.getD i defaultTrack) = 0))
    (hstream : (p.tracks.getD i defaultTrack).stream = some st)
    (hexh : st.data.length ≤ st.pos) :
    ((p.tick).1.tracks.getD i defaultTrack).isPlaying = false ∧
    ((p.tick).1.tracks.getD i defaultTrack).isPaused = false ∧
    countEv i .TRACK_STOPPED (p.tick).1.events =
      countEv i .TRACK_STOPPED p.events + 1 ∧
    (∀ mb : List Int,
      (mixTrack p.hasCallback i (p.tracks.getD i defaultTrack) mb).2.1 = mb ∧
      (mixTrack p.hasCallback i (p.tracks.getD i defaultTrack) mb).2.2.2 = false) := by
  have hz : (st.read (samplesToRead (p.tracks.getD i defaultTrack) * 2)).1.length = 0 := by
    rw [read_length]
    omega
  have hstep : ∀ mb : List Int,
      mixTrack p.hasCallback i (p.tracks.getD i defaultTrack) mb =
        (stopFlags (refillTrack (p.tracks.getD i defaultTrack) st), mb,
          emitIf p.hasCallback i .TRACK_STOPPED, false) :=
    fun mb => mixTrack_zeroRead p.hasCallback i _ mb st hbp hno hstream hz
  have hcnd : ((p.tracks.getD i defaultTrack).isPlaying &&
      !(p.tracks.getD i defaultTrack).isPaused) = true := by
    rw [hplay, hpause]
    rfl
  obtain ⟨_, _, _, htr, hev, _, _⟩ := tick_char p hinit
  have htrk : (p.tick).1.tracks.getD i defaultTrack =
      stepTrack p.hasCallback i (p.tracks.getD i defaultTrack) := by
    rw [htr, tickTracks_tracks p.hasCallback p.tracks 0 zeroMix i defaultTrack hi,
      Nat.zero_add, if_pos hcnd]
  have hstepTr : stepTrack p.hasCallback i (p.tracks.getD i defaultTrack) =
      stopFlags (refillTrack (p.tracks.getD i defaultTrack) st) := by
    unfold stepTrack
    rw [hstep zeroMix]
  have hstepEv : stepEvents p.hasCallback i (p.tracks.getD i defaultTrack) =
      [((i : Int), WavPlayerEvent.TRACK_STOPPED)] := by
    unfold stepEvents
    rw [hstep zeroMix]
    show emitIf p.hasCallback i .TRACK_STOPPED = _
    rw [hcb]
    rfl
  refine ⟨?_, ?_, ?_, ?_⟩
  · rw [htrk, hstepTr]
    rfl
  · rw [htrk, hstepTr]
    rfl
  · rw [hev, countEv_append]
    have hc := evList_count p.hasCallback .TRACK_STOPPED p.tracks i 0 hi
    rw [Nat.zero_add] at hc
    rw [hc, if_pos hcnd, hstepEv]
    unfold countEv
    rw [List.count_singleton]
    simp
  · intro mb
    rw [hstep mb]
    exact ⟨rfl, rfl⟩

/-- C7 witness: a track played from an already-exhausted unbounded source is
stopped on the first tick with one TRACK_STOPPED emitted. -/
theorem zero_read_stops_witness :
    (((((((mkWavPlayer.start).1.onEvent true).play 0 (some ⟨[], 0⟩) false 0).1).tick).1.tracks.getD
        0 defaultTrack).isPlaying = false) ∧
    (countEv 0 .TRACK_STOPPED
        ((((((mkWavPlayer.start).1.onEvent true).play 0 (some ⟨[], 0⟩) false 0).1).tick).1).events =
      countEv 0 .TRACK_STOPPED
        (((((mkWavPlayer.start).1.onEvent true).play 0 (some ⟨[], 0⟩) false 0).1)).events + 1) := by
  have h := zero_read_stops
    ((((mkWavPlayer.start).1.onEvent true).play 0 (some ⟨[], 0⟩) false 0).1) 0 ⟨[], 0⟩
    (by decide) (by decide) (by decide) (by decide) (by decide) (by decide)
    (by decide) (by decide) (by decide)
  exact ⟨h.1, h.2.2.1⟩

/-! C10 — byte-accounting invariant for bounded tracks. -/

/-- Per-slot invariant: the stored `uint32_t` size is in range, and for a
bounded track the consumed byte count never exceeds the byte budget. -/
def trackInv (tr : AudioTrack) : Prop :=
  tr.dataSize < U32 ∧ (0 < tr.dataSize → tr.position ≤ tr.dataSize)

/-- Engine invariant: every slot satisfies `trackInv` (out-of-range reads give
the default slot, which satisfies it trivially). -/
def stateInv (p : WavPlayer) : Prop :=
  ∀ j : Nat, trackInv (p.tracks.getD j defaultTrack)

theorem u32sub_eq (a b : Nat) (ha : a < U32) (hb : b ≤ a) : u32sub a b = a - b := by
  unfold u32sub U32 at *
  omega

theorem trackInv_default : trackInv defaultTrack := by
  constructor
  · unfold defaultTrack U32
    norm_num
  · intro h
    simp [defaultTrack] at h

theorem trackInv_of_fields (tr tr' : AudioTrack)
    (hds : tr'.dataSize = tr.dataSize) (hpos : tr'.position = tr.position)
    (h : trackInv tr) : trackInv tr' := by
  unfold trackInv at *
  rw [hds, hpos]
  exact h

theorem getD_set_self (l : List AudioTrack) (n : Nat) (a d : AudioTrack)
    (h : n < l.length) : (l.set n a).getD n d = a := by
  simp [List.getD_eq_getElem?_getD, List.getElem?_set_self', List.getElem?_eq_getElem, h]

theorem getD_set_ne (l : List AudioTrack) (n m : Nat) (a d : AudioTrack)
    (h : n ≠ m) : (l.set n a).getD m d = l.getD m d := by
  simp [List.getD_eq_getElem?_getD, List.getElem?_set_ne h]

theorem getD_of_le (l : List AudioTrack) (n : Nat) (d : AudioTrack)
    (h : l.length ≤ n) : l.getD n d = d := by
  simp [List.getD_eq_getElem?_getD, List.getElem?_eq_none h]

/-- Setting one slot to an invariant-satisfying track preserves the engine
invariant. -/
theorem stateInv_setTrack (p : WavPlayer) (n : Nat) (tr : AudioTrack)
    (hp : stateInv p) (htr : trackInv tr) : stateInv (p.setTrack n tr) := by
  intro j
  show trackInv ((p.tracks.set n tr).getD j defaultTrack)
  by_cases hn : n = j
  · subst hn
    by_cases hl : n < p.tracks.length
    · rw [getD_set_self p.tracks n tr defaultTrack hl]
      exact htr
    · rw [List.set_eq_of_length_le (by omega)]
      exact hp n
  · rw [getD_set_ne p.tracks n j tr defaultTrack hn]
    exact hp j

theorem stateInv_emit (p : WavPlayer) (t : Int) (e : WavPlayerEvent)
    (hp : stateInv p) : stateInv (p.emit t e) := by
  intro j
  show trackInv ((p.emit t e).tracks.getD j defaultTrack)
  rw [emit_tracks]
  exact hp j

/-- The refill read is clamped to the remaining byte budget
(`min(mixBufferSize, bytesRemaining / 2)` samples), and the byte-stream model
delivers at most the requested count, so a refill preserves the invariant and
the `uint32_t` subtraction never wraps. -/
theorem trackInv_refill (tr : AudioTrack) (st : ByteStream) (h : trackInv tr) :
    trackInv (refillTrack tr st) := by
  obtain ⟨h1, h2⟩ := h
  refine ⟨h1, ?_⟩
  intro hds
  have hds' : 0 < tr.dataSize := hds
  have hpos := h2 hds'
  show (tr.position + (st.read (samplesToRead tr * 2)).1.length) % U32 ≤ tr.dataSize
  have hlen : (st.read (samplesToRead tr * 2)).1.length ≤ samplesToRead tr * 2 := by
    rw [read_length]
    exact min_le_left _ _
  have hsam : samplesToRead tr * 2 ≤ tr.dataSize - tr.position := by
    unfold samplesToRead
    rw [if_pos hds', u32sub_eq tr.dataSize tr.position h1 hpos]
    have := Nat.min_le_right mixBufferSize ((tr.dataSize - tr.position) / 2)
    omega
  unfold U32 at *
  omega

/-- The track component of the mix step preserves the invariant. -/
theorem trackInv_mixTrack (hcb : Bool) (n : Nat) (tr : AudioTrack) (mb : List Int)
    (h : trackInv tr) : trackInv ((mixTrack hcb n tr mb).1) := by
  by_cases hbp : mixBufferSize ≤ tr.bufferPos
  · by_cases hstop : 0 < tr.dataSize ∧ samplesToRead tr = 0
    · rw [mixTrack_clampStop hcb n tr mb hbp hstop.1 hstop.2]
      exact trackInv_of_fields tr _ rfl rfl h
    · cases hstream : tr.stream with
      | none =>
        rw [mixTrack_noneStream hcb n tr mb hbp hstop hstream]
        exact h
      | some st =>
        by_cases hz : (st.read (samplesToRead tr * 2)).1.length = 0
        · rw [mixTrack_zeroRead hcb n tr mb st hbp hstop hstream hz]
          exact trackInv_of_fields (refillTrack tr st) _ rfl rfl
            (trackInv_refill tr st h)
        · rw [mixTrack_read hcb n tr mb st hbp hstop hstream hz, mixPhase_track]
          exact trackInv_of_fields (refillTrack tr st) _ rfl rfl
            (trackInv_refill tr st h)
  · rw [mixTrack_mix hcb n tr mb (by omega), mixPhase_track]
    exact trackInv_of_fields tr _ rfl rfl h

theorem stateInv_stop (q : WavPlayer) (t : Int) (h : stateInv q) :
    stateInv (q.stop t) := by
  unfold WavPlayer.stop
  by_cases hv : q.isValidTrack t = true
  · rw [if_pos hv]
    exact stateInv_emit _ _ _
      (stateInv_setTrack q t.toNat _ h
        (trackInv_of_fields (q.getTrack t) _ rfl rfl (h t.toNat)))
  · rw [if_neg hv]
    exact h

theorem stateInv_applyOp (p : WavPlayer) (op : WavOp) (hp : stateInv p) :
    stateInv (applyOp p op) := by
  cases op with
  | opStart =>
    show stateInv (p.start).1
    unfold WavPlayer.start
    by_cases hini : p.initialized = true
    · rw [if_pos hini]
      exact hp
    · rw [if_neg hini]
      intro j
      show trackInv ((p.tracks.map _).getD j defaultTrack)
      by_cases hj : j < p.tracks.length
      · have hmap : (p.tracks.map
            (fun tr => { tr with buffer := List.replicate (mixBufferSize * 2) 0 })).getD
              j defaultTrack =
            { p.tracks.getD j defaultTrack with
                buffer := List.replicate (mixBufferSize * 2) 0 } := by
          rw [List.getD_eq_getElem p.tracks defaultTrack hj,
            List.getD_eq_getElem _ defaultTrack (by simpa using hj)]
          simp
        rw [hmap]
        exact trackInv_of_fields _ _ rfl rfl (hp j)
      · rw [getD_of_le _ _ _ (by simpa using Nat.not_lt.mp hj)]
        exact trackInv_default
  | opCancel =>
    show stateInv (p.cancel).1
    by_cases hini : p.initialized = true
    · have hfold : ∀ (l : List Nat) (q : WavPlayer), stateInv q →
          stateInv (l.foldl
            (fun (q : WavPlayer) (i : Nat) =>
              let q1 := q.stop (i : Int)
              q1.setTrack i { q1.getTrack (i : Int) with buffer := [] }) q) := by
        intro l
        induction l with
        | nil => intro q hq; exact hq
        | cons x xs ih =>
          intro q hq
          apply ih
          have hq1 : stateInv (q.stop (x : Int)) := stateInv_stop q x hq
          exact stateInv_setTrack _ x _ hq1
            (trackInv_of_fields ((q.stop (x : Int)).getTrack (x : Int)) _ rfl rfl
              (hq1 ((x : Int)).toNat))
      have hres : (p.cancel).1.tracks =
          ((List.range MAX_TRACKS).foldl
            (fun (q : WavPlayer) (i : Nat) =>
              let q1 := q.stop (i : Int)
              q1.setTrack i { q1.getTrack (i : Int) with buffer := [] }) p).tracks := by
        unfold WavPlayer.cancel
        rw [if_neg (by rw [hini]; simp)]
      intro j
      show trackInv ((p.cancel).1.tracks.getD j defaultTrack)
      rw [hres]
      exact hfold (List.range MAX_TRACKS) p hp j
    · have hini' : p.initialized = false := by
        cases hb : p.initialized
        · rfl
        · exact absurd hb hini
      have hres : (p.cancel).1 = p := by
        unfold WavPlayer.cancel
        rw [if_pos (by rw [hini']; rfl)]
      rw [hres]
      exact hp
  | opTick =>
    show stateInv (p.tick).1
    by_cases hini : p.initialized = true
    · obtain ⟨_, _, _, htr, _, _, _⟩ := tick_char p hini
      intro j
      rw [htr]
      by_cases hj : j < p.tracks.length
      · rw [tickTracks_tracks p.hasCallback p.tracks 0 zeroMix j defaultTrack hj]
        by_cases hcond : ((p.tracks.getD j defaultTrack).isPlaying &&
            !(p.tracks.getD j defaultTrack).isPaused) = true
        · rw [if_pos hcond]
          exact trackInv_mixTrack p.hasCallback (0 + j) _ zeroMix (hp j)
        · rw [if_neg hcond]
          exact hp j
      · rw [getD_of_le _ _ _ (by rw [tickTracks_length]; omega)]
        exact trackInv_default
    · have hini' : p.initialized = false := by
        cases hb : p.initialized
        · rfl
        · exact absurd hb hini
      have hres : p.tick = (p, false) := by
        unfold WavPlayer.tick
        rw [if_pos hini']
      rw [hres]
      exact hp
  | opPlay t s ph ds =>
    show stateInv (p.play t s ph ds).1
    have hnew : ∀ (st : Option ByteStream) (hsz : Nat),
        trackInv
          { stream := st
            isPlaying := true
            isPaused := false
            dataSize := if hsz < ds % U32 then ds % U32 - hsz else 0
            position := 0
            volume := (p.getTrack t).volume
            buffer := (p.getTrack t).buffer
            bufferPos := mixBufferSize
            parseWavHeader := ph } := by
      intro st hsz
      constructor
      · show (if hsz < ds % U32 then ds % U32 - hsz else 0) < U32
        have : ds % U32 < U32 := Nat.mod_lt ds (by unfold U32; norm_num)
        split <;> omega
      · intro _
        exact Nat.zero_le _
    by_cases hg : (t < 0 ∨ (MAX_TRACKS : Int) ≤ t ∨ p.initialized = false ∨ s = none)
    · have : p.play t s ph ds = (p, false) := by
        unfold WavPlayer.play
        rw [if_pos hg]
      rw [this]
      exact hp
    · rcases s with _ | st
      · exact absurd (Or.inr (Or.inr (Or.inr rfl))) hg
      · cases ph with
        | false =>
          have : p.play t (some st) false ds =
              ((p.setTrack t.toNat
                { stream := some st
                  isPlaying := true
                  isPaused := false
                  dataSize := if 0 < ds % U32 then ds % U32 - 0 else 0
                  position := 0
                  volume := (p.getTrack t).volume
                  buffer := (p.getTrack t).buffer
                  bufferPos := mixBufferSize
                  parseWavHeader := false }).emit t .TRACK_STARTED, true) := by
            unfold WavPlayer.play
            rw [if_neg hg]
            simp
          rw [this]
          exact stateInv_emit _ _ _ (stateInv_setTrack p t.toNat _ hp (hnew (some st) 0))
        | true =>
          by_cases hsk : (skipWavHeader st).1 = false
          · have : p.play t (some st) true ds = (p, false) := by
              unfold WavPlayer.play
              rw [if_neg hg]
              simp [hsk]
            rw [this]
            exact hp
          · have hsk' : (skipWavHeader st).1 = true := by
              cases hb : (skipWavHeader st).1
              · exact absurd hb hsk
              · rfl
            have : p.play t (some st) true ds =
                ((p.setTrack t.toNat
                  { stream := some (skipWavHeader st).2
                    isPlaying := true
                    isPaused := false
                    dataSize := if 44 < ds % U32 then ds % U32 - 44 else 0
                    position := 0
                    volume := (p.getTrack t).volume
                    buffer := (p.getTrack t).buffer
                    bufferPos := mixBufferSize
                    parseWavHeader := true }).emit t .TRACK_STARTED, true) := by
              unfold WavPlayer.play
              rw [if_neg hg]
              simp [hsk']
            rw [this]
            exact stateInv_emit _ _ _
              (stateInv_setTrack p t.toNat _ hp (hnew (some (skipWavHeader st).2) 44))
  | opPause t =>
    show stateInv (p.pause t)
    by_cases hv : p.isValidTrack t = true
    · by_cases hpa : (p.getTrack t).isPaused = true
      · rw [pause_noop p t (Or.inr hpa)]
        exact hp
      · have hpa' : (p.getTrack t).isPaused = false := by
          cases hb : (p.getTrack t).isPaused
          · rfl
          · exact absurd hb hpa
        rw [pause_not_noop p t hv hpa']
        exact stateInv_emit _ _ _
          (stateInv_setTrack p t.toNat _ hp
            (trackInv_of_fields (p.getTrack t) _ rfl rfl (hp t.toNat)))
    · have hv' : p.isValidTrack t = false := by
        cases hb : p.isValidTrack t
        · rfl
        · exact absurd hb hv
      rw [pause_noop p t (Or.inl hv')]
      exact hp
  | opResume t =>
    show stateInv (p.resume t)
    by_cases hv : p.isValidTrack t = true
    · by_cases hpa : (p.getTrack t).isPaused = true
      · rw [resume_not_noop p t hv hpa]
        exact stateInv_emit _ _ _
          (stateInv_setTrack p t.toNat _ hp
            (trackInv_of_fields (p.getTrack t) _ rfl rfl (hp t.toNat)))
      · have hpa' : (p.getTrack t).isPaused = false := by
          cases hb : (p.getTrack t).isPaused
          · rfl
          · exact absurd hb hpa
        rw [resume_noop p t (Or.inr hpa')]
        exact hp
    · have hv' : p.isValidTrack t = false := by
        cases hb : p.isValidTrack t
        · rfl
        · exact absurd hb hv
      rw [resume_noop p t (Or.inl hv')]
      exact hp
  | opStop t =>
    exact stateInv_stop p t hp
  | opSetVolume t v =>
    show stateInv (p.setVolume t v)
    unfold WavPlayer.setVolume
    by_cases hv : p.isValidTrack t = true
    · rw [if_pos hv]
      exact stateInv_setTrack p t.toNat _ hp
        (trackInv_of_fields (p.getTrack t) _ rfl rfl (hp t.toNat))
    · rw [if_neg hv]
      exact hp
  | opOnEvent b =>
    intro j
    exact hp j

theorem stateInv_mk : stateInv mkWavPlayer := by
  intro j
  show trackInv ((List.replicate MAX_TRACKS defaultTrack).getD j defaultTrack)
  by_cases hj : j < MAX_TRACKS
  · rw [List.getD_eq_getElem _ defaultTrack (by simpa using hj)]
    simp only [List.getElem_replicate]
    exact trackInv_default
  · rw [getD_of_le _ _ _ (by simpa using Nat.not_lt.mp hj)]
    exact trackInv_default

theorem stateInv_applyOps (ops : List WavOp) : stateInv (applyOps ops mkWavPlayer) := by
  have h : ∀ (l : List WavOp) (q : WavPlayer), stateInv q → stateInv (applyOps l q) := by
    intro l
    induction l with
    | nil => intro q hq; exact hq
    | cons op rest ih =>
      intro q hq
      exact ih (applyOp q op) (stateInv_applyOp q op hq)
  exact h ops mkWavPlayer stateInv_mk

/-- C10: in every state reachable by any sequence of public operations, every
track slot with a positive byte budget satisfies `position ≤ dataSize` (the
byte-stream model returns at most the requested byte count by construction),
and consequently the `uint32_t` subtraction `dataSize - position` computed at
each refill equals the true difference — it never underflows. -/
theorem position_le_dataSize (ops : List WavOp) (j : Nat)
    (hds : 0 < ((applyOps ops mkWavPlayer).tracks.getD j defaultTrack).dataSize) :
    ((applyOps ops mkWavPlayer).tracks.getD j defaultTrack).position ≤
      ((applyOps ops mkWavPlayer).tracks.getD j defaultTrack).dataSize ∧
    u32sub ((applyOps ops mkWavPlayer).tracks.getD j defaultTrack).dataSize
        ((applyOps ops mkWavPlayer).tracks.getD j defaultTrack).position =
      ((applyOps ops mkWavPlayer).tracks.getD j defaultTrack).dataSize -
        ((applyOps ops mkWavPlayer).tracks.getD j defaultTrack).position := by
  have h := stateInv_applyOps ops j
  exact ⟨h.2 hds, u32sub_eq _ _ h.1 (h.2 hds)⟩

/-- C10 witness: after start, a bounded play (budget 2 bytes) and one tick,
track 0 satisfies the byte-accounting invariant. -/
theorem position_le_dataSize_witness :
    ((applyOps [WavOp.opStart,
        WavOp.opPlay 0 (some ⟨[9, 9, 9, 9], 0⟩) false 2,
        WavOp.opTick] mkWavPlayer).tracks.getD 0 defaultTrack).position ≤
      ((applyOps [WavOp.opStart,
        WavOp.opPlay 0 (some ⟨[9, 9, 9, 9], 0⟩) false 2,
        WavOp.opTick] mkWavPlayer).tracks.getD 0 defaultTrack).dataSize :=
  (position_le_dataSize [WavOp.opStart,
    WavOp.opPlay 0 (some ⟨[9, 9, 9, 9], 0⟩) false 2,
    WavOp.opTick] 0 (by decide)).1

/-! C1 — bounded playback consumption. -/

theorem tick_stopped (p : WavPlayer) (i : Nat) (e : WavPlayerEvent)
    (hi : i < p.tracks.length) (hinit : p.initialized = true)
    (hstop : (p.tracks.getD i defaultTrack).isPlaying = false) :
    (p.tick).1.tracks.getD i defaultTrack = p.tracks.getD i defaultTrack ∧
    countEv i e (p.tick).1.events = countEv i e p.events ∧
    (p.tick).1.initialized = true ∧
    (p.tick).1.tracks.length = p.tracks.length := by
  obtain ⟨_, hini', _, htr, hev, _, _⟩ := tick_char p hinit
  have hcond : ((p.tracks.getD i defaultTrack).isPlaying &&
      !(p.tracks.getD i defaultTrack).isPaused) = false := by
    rw [hstop]
    rfl
  refine ⟨?_, ?_, hini', ?_⟩
  · rw [htr, tickTracks_tracks p.hasCallback p.tracks 0 zeroMix i defaultTrack hi,
      if_neg (by rw [hcond]; exact Bool.false_ne_true)]
  · rw [hev, countEv_append]
    have hc := evList_count p.hasCallback e p.tracks i 0 hi
    rw [Nat.zero_add] at hc
    rw [hc, if_neg (by rw [hcond]; exact Bool.false_ne_true)]
    omega
  · rw [htr, tickTracks_length]

theorem tickIter_stable (i : Nat) (e : WavPlayerEvent) :
    ∀ (m : Nat) (p : WavPlayer), p.initialized = true → i < p.tracks.length →
      (p.tracks.getD i defaultTrack).isPlaying = false →
      (tickIter p m).tracks.getD i defaultTrack = p.tracks.getD i defaultTrack ∧
      countEv i e (tickIter p m).events = countEv i e p.events := by
  intro m
  induction m with
  | zero =>
    intro p _ _ _
    exact ⟨rfl, rfl⟩
  | succ m ih =>
    intro p hinit hi hstop
    obtain ⟨ht, hc, hini', hlen⟩ := tick_stopped p i e hi hinit hstop
    obtain ⟨iht, ihc⟩ := ih (p.tick).1 hini' (by rw [hlen]; exact hi)
      (by rw [ht]; exact hstop)
    constructor
    · show (tickIter (p.tick).1 m).tracks.getD i defaultTrack = _
      rw [iht, ht]
    · show countEv i e (tickIter (p.tick).1 m).events = _
      rw [ihc, hc]

/-- Terminal case: once the remaining budget holds less than one whole sample,
the clamped request is zero, so the next tick stops the track where it is. -/
theorem bounded_terminal (p : WavPlayer) (i : Nat) (N pos : Nat)
    (hi : i < p.tracks.length)
    (hinit : p.initialized = true)
    (hcb : p.hasCallback = true)
    (hplay : (p.tracks.getD i defaultTrack).isPlaying = true)
    (hpause : (p.tracks.getD i defaultTrack).isPaused = false)
    (hN : (p.tracks.getD i defaultTrack).dataSize = N)
    (hpo : (p.tracks.getD i defaultTrack).position = pos)
    (hbp : (p.tracks.getD i defaultTrack).bufferPos = mixBufferSize)
    (hNpos : 0 < N) (hNlt : N < U32) (hple : pos ≤ N) (hpar : pos % 2 = 0)
    (hterm : (N - pos) / 2 = 0) :
    ∃ k : Nat, ∀ m : Nat,
      ((tickIter p (k + m)).tracks.getD i defaultTrack).isPlaying = false ∧
      ((tickIter p (k + m)).tracks.getD i defaultTrack).position = 2 * (N / 2) ∧
      countEv i .TRACK_STOPPED (tickIter p (k + m)).events =
        countEv i .TRACK_STOPPED p.events + 1 := by
  have hsam : samplesToRead (p.tracks.getD i defaultTrack) = 0 := by
    unfold samplesToRead
    rw [if_pos (by rw [hN]; exact hNpos), hN, hpo,
      u32sub_eq N pos hNlt hple, hterm]
    simp
  have hstep : ∀ mb : List Int,
      mixTrack p.hasCallback i (p.tracks.getD i defaultTrack) mb =
        (stopFlags (p.tracks.getD i defaultTrack), mb,
          emitIf p.hasCallback i .TRACK_STOPPED, false) :=
    fun mb => mixTrack_clampStop p.hasCallback i _ mb
      (by rw [hbp]) (by rw [hN]; exact hNpos) hsam
  have hcond : ((p.tracks.getD i defaultTrack).isPlaying &&
      !(p.tracks.getD i defaultTrack).isPaused) = true := by
    rw [hplay, hpause]
    rfl
  obtain ⟨_, hini', _, htr, hev, _, _⟩ := tick_char p hinit
  have htrk : (p.tick).1.tracks.getD i defaultTrack =
      stopFlags (p.tracks.getD i defaultTrack) := by
    rw [htr, tickTracks_tracks p.hasCallback p.tracks 0 zeroMix i defaultTrack hi,
      Nat.zero_add, if_pos hcond]
    unfold stepTrack
    rw [hstep zeroMix]
  have hcount : countEv i .TRACK_STOPPED (p.tick).1.events =
      countEv i .TRACK_STOPPED p.events + 1 := by
    rw [hev, countEv_append]
    have hc := evList_count p.hasCallback .TRACK_STOPPED p.tracks i 0 hi
    rw [Nat.zero_add] at hc
    rw [hc, if_pos hcond]
    have hse : stepEvents p.hasCallback i (p.tracks.getD i defaultTrack) =
        [((i : Int), WavPlayerEvent.TRACK_STOPPED)] := by
      unfold stepEvents
      rw [hstep zeroMix]
      show emitIf p.hasCallback i .TRACK_STOPPED = _
      rw [hcb]
      rfl
    rw [hse]
    unfold countEv
    rw [List.count_singleton]
    simp
  have hlen : (p.tick).1.tracks.length = p.tracks.length := by
    obtain ⟨_, _, _, htr', _, _, _⟩ := tick_char p hinit
    rw [htr', tickTracks_length]
  refine ⟨1, fun m => ?_⟩
  have hstable := tickIter_stable i .TRACK_STOPPED m (p.tick).1 hini'
    (by rw [hlen]; exact hi) (by rw [htrk]; rfl)
  have hiter : tickIter p (1 + m) = tickIter (p.tick).1 m := by
    have : 1 + m = m + 1 := by omega
    rw [this]
    rfl
  rw [hiter]
  refine ⟨?_, ?_, ?_⟩
  · rw [hstable.1, htrk]
    rfl
  · rw [hstable.1, htrk]
    show (p.tracks.getD i defaultTrack).position = 2 * (N / 2)
    rw [hpo]
    omega
  · rw [hstable.2, hcount]

/-- Progress case: with at least one whole sample remaining and a source that
still holds the full budget, a tick refills exactly
`min(mixBufferSize, bytesRemaining / 2)` samples, advances `position` by the
bytes read, leaves the slot Playing with a fully consumed decode buffer, and
emits nothing for this track. -/
theorem bounded_tick_step (p : WavPlayer) (i : Nat) (st : ByteStream) (N pos : Nat)
    (hi : i < p.tracks.length)
    (hinit : p.initialized = true)
    (hcb : p.hasCallback = true)
    (hplay : (p.tracks.getD i defaultTrack).isPlaying = true)
    (hpause : (p.tracks.getD i defaultTrack).isPaused = false)
    (hN : (p.tracks.getD i defaultTrack).dataSize = N)
    (hpo : (p.tracks.getD i defaultTrack).position = pos)
    (hbp : (p.tracks.getD i defaultTrack).bufferPos = mixBufferSize)
    (hstream : (p.tracks.getD i defaultTrack).stream = some st)
    (hNpos : 0 < N) (hNlt : N < U32) (hple : pos ≤ N)
    (hsupply : N - pos ≤ st.data.length - st.pos)
    (hterm : 0 < (N - pos) / 2) :
    (p.tick).1.initialized = true ∧
    (p.tick).1.hasCallback = true ∧
    (p.tick).1.tracks.length = p.tracks.length ∧
    ((p.tick).1.tracks.getD i defaultTrack).isPlaying = true ∧
    ((p.tick).1.tracks.getD i defaultTrack).isPaused = false ∧
    ((p.tick).1.tracks.getD i defaultTrack).dataSize = N ∧
    ((p.tick).1.tracks.getD i defaultTrack).position =
      pos + min mixBufferSize ((N - pos) / 2) * 2 ∧
    ((p.tick).1.tracks.getD i defaultTrack).bufferPos = mixBufferSize ∧
    ((p.tick).1.tracks.getD i defaultTrack).stream =
      some ((st.read (min mixBufferSize ((N - pos) / 2) * 2)).2) ∧
    countEv i .TRACK_STOPPED (p.tick).1.events =
      countEv i .TRACK_STOPPED p.events := by
  have hmixpos : 0 < mixBufferSize := by norm_num [mixBufferSize]
  have hspos : 0 < min mixBufferSize ((N - pos) / 2) := Nat.lt_min.mpr ⟨hmixpos, hterm⟩
  have hreq : min mixBufferSize ((N - pos) / 2) * 2 ≤ N - pos := by
    have := Nat.min_le_right mixBufferSize ((N - pos) / 2)
    omega
  have hsam : samplesToRead (p.tracks.getD i defaultTrack) =
      min mixBufferSize ((N - pos) / 2) := by
    unfold samplesToRead
    rw [if_pos (by rw [hN]; exact hNpos), hN, hpo, u32sub_eq N pos hNlt hple]
  have hchunk : (st.read (samplesToRead (p.tracks.getD i defaultTrack) * 2)).1.length =
      min mixBufferSize ((N - pos) / 2) * 2 := by
    rw [hsam, read_length]
    omega
  have hz : ¬((st.read (samplesToRead (p.tracks.getD i defaultTrack) * 2)).1.length = 0) := by
    rw [hchunk]
    omega
  have hno : ¬(0 < (p.tracks.getD i defaultTrack).dataSize ∧
      samplesToRead (p.tracks.getD i defaultTrack) = 0) := by
    rw [hsam]
    rintro ⟨_, h0⟩
    omega
  have hstepEq : ∀ mb : List Int,
      mixTrack p.hasCallback i (p.tracks.getD i defaultTrack) mb =
        mixPhase (refillTrack (p.tracks.getD i defaultTrack) st) mb :=
    fun mb => mixTrack_read p.hasCallback i _ mb st (by rw [hbp]) hno hstream hz
  have hcond : ((p.tracks.getD i defaultTrack).isPlaying &&
      !(p.tracks.getD i defaultTrack).isPaused) = true := by
    rw [hplay, hpause]
    rfl
  obtain ⟨_, hini', hhc, htr, hev, _, _⟩ := tick_char p hinit
  have hmixbp :
      (mixLoop (refillTrack (p.tracks.getD i defaultTrack) st).buffer
        (refillTrack (p.tracks.getD i defaultTrack) st).volume mixBufferSize 0
        (refillTrack (p.tracks.getD i defaultTrack) st).bufferPos zeroMix).2 =
      mixBufferSize := by
    have hbp0 : (refillTrack (p.tracks.getD i defaultTrack) st).bufferPos = 0 := rfl
    rw [hbp0]
    exact mixLoop_snd_eq _ _ mixBufferSize 0 0 zeroMix (le_refl 0) (Nat.zero_le _)
      (by omega)
  have htrk : (p.tick).1.tracks.getD i defaultTrack =
      { refillTrack (p.tracks.getD i defaultTrack) st with
          bufferPos := mixBufferSize } := by
    rw [htr, tickTracks_tracks p.hasCallback p.tracks 0 zeroMix i defaultTrack hi,
      Nat.zero_add, if_pos hcond]
    unfold stepTrack
    rw [hstepEq zeroMix, mixPhase_track, hmixbp]
  refine ⟨hini', by rw [hhc]; exact hcb, by rw [htr, tickTracks_length], ?_, ?_, ?_,
    ?_, ?_, ?_, ?_⟩
  · rw [htrk]
    exact hplay
  · rw [htrk]
    exact hpause
  · rw [htrk]
    exact hN
  · rw [htrk]
    show ((p.tracks.getD i defaultTrack).position +
      (st.read (samplesToRead (p.tracks.getD i defaultTrack) * 2)).1.length) % U32 =
      pos + min mixBufferSize ((N - pos) / 2) * 2
    rw [hpo, hchunk]
    have hle : pos + min mixBufferSize ((N - pos) / 2) * 2 ≤ N := by omega
    unfold U32 at hNlt ⊢
    omega
  · rw [htrk]
  · rw [htrk]
    show some (st.read (samplesToRead (p.tracks.getD i defaultTrack) * 2)).2 = _
    rw [hsam]
  · rw [hev, countEv_append]
    have hc := evList_count p.hasCallback .TRACK_STOPPED p.tracks i 0 hi
    rw [Nat.zero_add] at hc
    rw [hc, if_pos hcond]
    have hse : stepEvents p.hasCallback i (p.tracks.getD i defaultTrack) = [] := by
      unfold stepEvents
      rw [hstepEq zeroMix, mixPhase_events]
    rw [hse]
    show countEv i .TRACK_STOPPED p.events + countEv i .TRACK_STOPPED [] =
      countEv i .TRACK_STOPPED p.events
    unfold countEv
    simp

/-- Fuel-indexed induction: a Playing bounded track with an intact byte budget
and a sufficiently supplied source is eventually stopped with exactly
`2 * (N / 2)` bytes consumed and exactly one TRACK_STOPPED emitted, and stays
that way. -/
theorem bounded_aux (fuel : Nat) :
    ∀ (p : WavPlayer) (i : Nat) (st : ByteStream) (N pos : Nat),
      i < p.tracks.length →
      p.initialized = true →
      p.hasCallback = true →
      (p.tracks.getD i defaultTrack).isPlaying = true →
      (p.tracks.getD i defaultTrack).isPaused = false →
      (p.tracks.getD i defaultTrack).dataSize = N →
      (p.tracks.getD i defaultTrack).position = pos →
      (p.tracks.getD i defaultTrack).bufferPos = mixBufferSize →
      (p.tracks.getD i defaultTrack).stream = some st →
      0 < N → N < U32 → pos ≤ N → pos % 2 = 0 →
      N - pos ≤ st.data.length - st.pos →
      N - pos ≤ fuel →
      ∃ k : Nat, ∀ m : Nat,
        ((tickIter p (k + m)).tracks.getD i defaultTrack).isPlaying = false ∧
        ((tickIter p (k + m)).tracks.getD i defaultTrack).position = 2 * (N / 2) ∧
        countEv i .TRACK_STOPPED (tickIter p (k + m)).events =
          countEv i .TRACK_STOPPED p.events + 1 := by
  induction fuel with
  | zero =>
    intro p i st N pos hi hinit hcb hplay hpause hN hpo hbp hstream hNpos hNlt hple
      hpar hsupply hfuel
    exact bounded_terminal p i N pos hi hinit hcb hplay hpause hN hpo hbp hNpos hNlt
      hple hpar (by omega)
  | succ f ih =>
    intro p i st N pos hi hinit hcb hplay hpause hN hpo hbp hstream hNpos hNlt hple
      hpar hsupply hfuel
    by_cases hterm : (N - pos) / 2 = 0
    · exact bounded_terminal p i N pos hi hinit hcb hplay hpause hN hpo hbp hNpos
        hNlt hple hpar hterm
    · have hterm' : 0 < (N - pos) / 2 := by omega
      obtain ⟨hini', hhc', hlen', hplay', hpause', hN', hpo', hbp', hstream', hcount'⟩ :=
        bounded_tick_step p i st N pos hi hinit hcb hplay hpause hN hpo hbp hstream
          hNpos hNlt hple hsupply hterm'
      have hmixpos : 0 < mixBufferSize := by norm_num [mixBufferSize]
      have hspos : 0 < min mixBufferSize ((N - pos) / 2) :=
        Nat.lt_min.mpr ⟨hmixpos, hterm'⟩
      have hreq : min mixBufferSize ((N - pos) / 2) * 2 ≤ N - pos := by
        have := Nat.min_le_right mixBufferSize ((N - pos) / 2)
        omega
      have hchunk : (st.read (min mixBufferSize ((N - pos) / 2) * 2)).1.length =
          min mixBufferSize ((N - pos) / 2) * 2 := by
        rw [read_length]
        omega
      have hsupply' :
          N - (pos + min mixBufferSize ((N - pos) / 2) * 2) ≤
            (st.read (min mixBufferSize ((N - pos) / 2) * 2)).2.data.length -
              (st.read (min mixBufferSize ((N - pos) / 2) * 2)).2.pos := by
        rw [read_data, read_pos, hchunk]
        omega
      obtain ⟨k, hk⟩ := ih (p.tick).1 i
        ((st.read (min mixBufferSize ((N - pos) / 2) * 2)).2) N
        (pos + min mixBufferSize ((N - pos) / 2) * 2)
        (by rw [hlen']; exact hi) hini' hhc' hplay' hpause' hN' hpo' hbp' hstream'
        hNpos hNlt (by omega) (by omega) hsupply' (by omega)
      refine ⟨k + 1, fun m => ?_⟩
      have hidx : k + 1 + m = (k + m) + 1 := by omega
      rw [hidx]
      have hk' := hk m
      have hiter : tickIter p ((k + m) + 1) = tickIter (p.tick).1 (k + m) := rfl
      rw [hiter]
      exact ⟨hk'.1, hk'.2.1, by rw [hk'.2.2, hcount']⟩

/-- Concrete engine with a bounded track whose declared budget (1 byte) is not
a whole number of 16-bit samples; the source holds 4 bytes. -/
def oddBudgetPlayer : WavPlayer :=
  ((((mkWavPlayer.start).1.onEvent true).play 0 (some ⟨[7, 7, 7, 7], 0⟩) false 1).1)

/-- C1 counterexample: a started engine playing a bounded stream with
`dataSize = 1` and 4 bytes of source available is stopped by the first tick
with `position = 0` — it never consumes the declared byte (the clamp
`min(mixBufferSize, 1 / 2)` is already zero), so it does not stop "after
consuming exactly N bytes" for `N = 1`. -/
theorem bounded_track_odd_budget_cex :
    (oddBudgetPlayer.tracks.getD 0 defaultTrack).dataSize = 1 ∧
    (oddBudgetPlayer.tracks.getD 0 defaultTrack).isPlaying = true ∧
    ((oddBudgetPlayer.tick).1.tracks.getD 0 defaultTrack).isPlaying = false ∧
    ((oddBudgetPlayer.tick).1.tracks.getD 0 defaultTrack).position = 0 ∧
    (oddBudgetPlayer.tick).1.events =
      [((0 : Int), WavPlayerEvent.TRACK_STARTED),
        ((0 : Int), WavPlayerEvent.TRACK_STOPPED)] := by
  decide

/-- C1 (amended): on a started engine with a callback, a track playing a
bounded stream (`dataSize = N > 0` after header adjustment) whose source holds
at least `N` more bytes is stopped automatically by repeated `tick()` calls
after consuming exactly `sampleSize * (N / sampleSize) = 2 * (N / 2)` bytes —
that is, exactly `N` bytes when `N` is a multiple of the 2-byte sample size,
with a trailing partial-sample byte never consumed — and exactly one
TRACK_STOPPED is emitted for the episode; on each refill the read request is
clamped to `min(mixBufferSize, bytesRemaining / sampleSize)` samples and the
track is stopped as soon as that clamped request is zero. -/
theorem bounded_track_consumption (p : WavPlayer) (i : Nat) (st : ByteStream)
    (hi : i < p.tracks.length)
    (hinit : p.initialized = true)
    (hcb : p.hasCallback = true)
    (hplay : (p.tracks.getD i defaultTrack).isPlaying = true)
    (hpause : (p.tracks.getD i defaultTrack).isPaused = false)
    (hds : 0 < (p.tracks.getD i defaultTrack).dataSize)
    (hlt : (p.tracks.getD i defaultTrack).dataSize < U32)
    (hpos : (p.tracks.getD i defaultTrack).position = 0)
    (hbp : (p.tracks.getD i defaultTrack).bufferPos = mixBufferSize)
    (hstream : (p.tracks.getD i defaultTrack).stream = some st)
    (hsupply : (p.tracks.getD i defaultTrack).dataSize ≤ st.data.length - st.pos) :
    (∃ k : Nat, ∀ m : Nat,
      ((tickIter p (k + m)).tracks.getD i defaultTrack).isPlaying = false ∧
      ((tickIter p (k + m)).tracks.getD i defaultTrack).position =
        2 * ((p.tracks.getD i defaultTrack).dataSize / 2) ∧
      countEv i .TRACK_STOPPED (tickIter p (k + m)).events =
        countEv i .TRACK_STOPPED p.events + 1) ∧
    (∀ (tr : AudioTrack) (mb : List Int), mixBufferSize ≤ tr.bufferPos →
      0 < tr.dataSize →
      min mixBufferSize (u32sub tr.dataSize tr.position / 2) = 0 →
      (mixTrack p.hasCallback i tr mb).1.isPlaying = false ∧
      (mixTrack p.hasCallback i tr mb).2.2.2 = false) := by
  constructor
  · exact bounded_aux ((p.tracks.getD i defaultTrack).dataSize) p i st
      ((p.tracks.getD i defaultTrack).dataSize) 0 hi hinit hcb hplay hpause rfl hpos
      hbp hstream hds hlt (Nat.zero_le _) (by omega) (by omega) (by omega)
  · intro tr mb hbp' hds' hcl
    have hsam : samplesToRead tr = 0 := by
      unfold samplesToRead
      rw [if_pos hds']
      exact hcl
    rw [mixTrack_clampStop p.hasCallback i tr mb hbp' hds' hsam]
    exact ⟨rfl, rfl⟩

/-- Concrete engine with a bounded track of budget 2 bytes over a 4-byte
source. -/
def evenBudgetPlayer : WavPlayer :=
  ((((mkWavPlayer.start).1.onEvent true).play 0 (some ⟨[9, 9, 9, 9], 0⟩) false 2).1)

/-- C1 witness: the amended statement instantiated at a bounded budget of 2
bytes over a 4-byte source on track 0. -/
theorem bounded_track_consumption_witness :
    (evenBudgetPlayer.tracks.getD 0 defaultTrack).dataSize = 2 ∧
    ∃ k : Nat, ∀ m : Nat,
      ((tickIter evenBudgetPlayer (k + m)).tracks.getD 0 defaultTrack).isPlaying = false ∧
      ((tickIter evenBudgetPlayer (k + m)).tracks.getD 0 defaultTrack).position =
        2 * ((evenBudgetPlayer.tracks.getD 0 defaultTrack).dataSize / 2) ∧
      countEv 0 .TRACK_STOPPED (tickIter evenBudgetPlayer (k + m)).events =
        countEv 0 .TRACK_STOPPED evenBudgetPlayer.events + 1 :=
  ⟨by decide,
    (bounded_track_consumption evenBudgetPlayer 0 ⟨[9, 9, 9, 9], 0⟩
      (by decide) (by decide) (by decide) (by decide) (by decide) (by decide)
      (by decide) (by decide) (by decide) (by decide) (by decide)).1⟩

end AsyncWav
